import Mathlib

/-! noisicaa: framed audio stream, CSound processor hand-off, IPC backend and
control values.

Shallow embedding of

* `noisicaa/audioproc/vm/audio_stream.cpp` (`AudioStreamBase`: `pipe_read`,
  `pipe_write`, `receive_bytes`, `send_bytes`, `close`),
* `noisicaa/audioproc/engine/processor_csound_base.cpp`
  (`ProcessorCSoundBase`: `set_code`, `setup_internal`, `cleanup_internal`,
  `connect_port_internal`, `process_block_internal`),
* `noisicore/status.h` and `noisicore/backend_ipc.cpp` (`IPCBackend`:
  `begin_block`, `end_block`, `output`),
* `noisicaa/audioproc/engine/control_value.h` (`FloatControlValue` and
  `IntControlValue`: `set_value`, `generation`).

The FIFOs are modelled by scripts: the list of outcomes that the successive
`poll` / `read` / `write` system calls of the loop will have.  A call that
exhausts its script never returns (it keeps polling), which is `none`.
The theorems on the codec split a script into a part `evs` that only
delivers bytes (or only accepts them) and what the pipe does `later`, which
is arbitrary.
-/

namespace noisicaa

/-! ## Status -/

/-- The texts built by the `ERROR_STATUS(fmt, ...)` calls of the embedded
sources, one constructor per format string, with the formatted arguments. -/
inductive ErrorText where
  /-- Text "Failed to poll in pipe: %d" -/
  | poll_in_failed (rc : Int)
  /-- Text "Failed to read from pipe." -/
  | read_failed
  /-- Text "Failed to poll out pipe: %d" -/
  | poll_out_failed (rc : Int)
  /-- Text "Failed to write to pipe." -/
  | write_failed
  /-- Text "Unexpected magic token %08x" -/
  | unexpected_magic (magic : Nat)
  /-- Text "Block too large (%d bytes)" -/
  | block_too_large (size : Nat)
  /-- Text "Invalid port index %d" -/
  | invalid_port_index (port_idx : Nat)
  /-- Text "Port %d not connected." -/
  | port_not_connected (port_idx : Nat)
  /-- An error text produced by a collaborator outside the embedded sources. -/
  | external (tag : Nat)
  deriving DecidableEq, Repr

/-- Modelled from the spec: the status carrier of `noisicaa/core/status.h`,
which is not among the sources (only `noisicore/status.h` with the codes OK
and ERROR is).  `Ok` is `Status::Ok()`, `Error t` is `ERROR_STATUS(...)`,
`ConnectionClosed` is `CONNECTION_CLOSED_STATUS()` (spec: "ConnectionClosed:
peer hangup or local close()"). -/
inductive Status where
  | Ok
  | Error (text : ErrorText)
  | ConnectionClosed
  deriving DecidableEq, Repr

/-- Modelled from the spec: `Status::is_error` as used by `RETURN_IF_ERROR`
("helper macros propagate errors early"): every status other than Ok. -/
def Status.is_error : Status → Bool
  | .Ok => false
  | _ => true

/-- Modelled from the spec: the error kind `BadFrame` ("unrecognised magic or
oversize payload").  The sources have no such code; both conditions are plain
`ERROR_STATUS` values, told apart by their text. -/
def Status.is_bad_frame : Status → Bool
  | .Error (.unexpected_magic _) => true
  | .Error (.block_too_large _) => true
  | _ => false

/-- `StatusOr<T>` of `status.h`: a status together with a result that is
default-constructed when built from a status. -/
structure StatusOr (α : Type) where
  status : Status
  _result : α
  deriving DecidableEq, Repr

/-- `StatusOr(const Status& s)`: result default-constructed. -/
def StatusOr.of_status {α : Type} [Inhabited α] (s : Status) : StatusOr α :=
  { status := s, _result := default }

/-- `StatusOr(T result)`: code OK. -/
def StatusOr.of_result {α : Type} (r : α) : StatusOr α :=
  { status := Status.Ok, _result := r }

/-! ## Bytes and 32-bit words -/

abbrev Byte := Fin 256

/-- Byte order of the host: the frame header is written by reinterpreting
`uint32_t` objects as `char` arrays, so it is laid out in host order. -/
inductive ByteOrder where
  | little
  | big
  deriving DecidableEq, Repr

/-- The least significant byte first. -/
def u32_bytes_le (v : Nat) : List Byte :=
  [Fin.ofNat (v % 256), Fin.ofNat (v / 256 % 256), Fin.ofNat (v / 65536 % 256),
   Fin.ofNat (v / 16777216 % 256)]

/-- The object representation of the `uint32_t` value `v` (`(const char*)&v`). -/
def u32_bytes (bo : ByteOrder) (v : Nat) : List Byte :=
  match bo with
  | .little => u32_bytes_le v
  | .big => (u32_bytes_le v).reverse

/-- Value of a little-endian byte string. -/
def u32_of_bytes_le : List Byte → Nat
  | [] => 0
  | b :: bs => b.val + 256 * u32_of_bytes_le bs

/-- The `uint32_t` whose object representation is the given bytes. -/
def u32_of_bytes (bo : ByteOrder) (bs : List Byte) : Nat :=
  match bo with
  | .little => u32_of_bytes_le bs
  | .big => u32_of_bytes_le bs.reverse

/-- Modelled from the spec: the magic constants of `audio_stream.h`, which is
not among the sources ("u32 magic ∈ { BLOCK_START=0x424C4B21,
CLOSE=0x434C4F53 }"). -/
def BLOCK_START : Nat := 0x424C4B21

/-- Modelled from the spec: see `BLOCK_START`. -/
def CLOSE : Nat := 0x434C4F53

/-! ## The pipes -/

/-- Outcome of one iteration of the loop of `pipe_read`: what `poll` on
`_pipe_in` reports and, for POLLIN, what `read` finds. -/
inductive PollIn where
  /-- `poll` returned `rc < 0`. -/
  | fail (rc : Int)
  /-- `poll` returned and `_closed` has been set meanwhile by `close()`. -/
  | closed
  /-- `poll` timed out: neither POLLIN nor POLLHUP in `revents`. -/
  | timeout
  /-- POLLIN, and `chunk` is what the pipe holds: `read` returns
  `min(size, |chunk|)` bytes, what it leaves stays in the pipe. -/
  | data (chunk : List Byte)
  /-- POLLIN, and `read` returned a negative value. -/
  | read_fail
  /-- POLLHUP without POLLIN. -/
  | hup
  deriving DecidableEq, Repr

/-- Outcome of one iteration of the loop of `pipe_write`. -/
inductive PollOut where
  /-- `poll` returned `rc < 0`. -/
  | fail (rc : Int)
  /-- `poll` returned and `_closed` has been set meanwhile by `close()`. -/
  | closed
  /-- `poll` timed out: neither POLLOUT nor POLLHUP in `revents`. -/
  | timeout
  /-- POLLOUT, and the pipe has room for `n` bytes: `write` takes
  `min(size, n)` bytes, the room it leaves stays available. -/
  | room (n : Nat)
  /-- POLLOUT, and `write` returned a negative value. -/
  | write_fail
  /-- POLLHUP without POLLOUT. -/
  | hup
  deriving DecidableEq, Repr

/-- The fields of `AudioStreamBase` that the codec uses.  `_pipe_in` and
`_pipe_out` are the scripts of the two descriptors; `bytes_in` and `bytes_out`
record what has been read from and written to them so far. -/
structure AudioStreamBase where
  _closed : Bool
  _pipe_in : List PollIn
  _pipe_out : List PollOut
  bytes_in : List Byte
  bytes_out : List Byte
  deriving DecidableEq, Repr

/-- `AudioStreamBase::close`. -/
def AudioStreamBase.close (s : AudioStreamBase) : AudioStreamBase :=
  { s with _closed := true }

/-- What `read` leaves in the pipe goes back to the head of the script. -/
def unread (left : List Byte) (evs : List PollIn) : List PollIn :=
  if left.isEmpty then evs else PollIn.data left :: evs

/-- Room that `write` did not use goes back to the head of the script. -/
def unused (left : Nat) (evs : List PollOut) : List PollOut :=
  if left = 0 then evs else PollOut.room left :: evs

/-- Result of a pipe loop: the status, the buffer (bytes read so far, or bytes
written so far), the script that is left and whether `_closed` was seen set. -/
structure LoopResult (ε : Type) where
  status : Status
  bytes : List Byte
  script : List ε
  closed : Bool
  deriving DecidableEq, Repr

/-- The `while (size > 0)` loop of `pipe_read`; `got` is what has been stored
at `data` so far.  One script entry per iteration.  In the POLLIN case `read`
returns `min(size, |chunk|)` bytes: with fewer than `size` the loop goes on,
with `size` of them the loop condition fails and Ok is returned. -/
def pipe_read_loop : List PollIn → Nat → List Byte → Option (LoopResult PollIn)
  | evs, 0, got => some ⟨Status.Ok, got, evs, false⟩
  | [], _ + 1, _ => none
  | PollIn.fail rc :: evs, _ + 1, got =>
      some ⟨Status.Error (ErrorText.poll_in_failed rc), got, evs, false⟩
  | PollIn.closed :: evs, _ + 1, got => some ⟨Status.ConnectionClosed, got, evs, true⟩
  | PollIn.timeout :: evs, n + 1, got => pipe_read_loop evs (n + 1) got
  | PollIn.data chunk :: evs, n + 1, got =>
      if chunk.length < n + 1 then
        pipe_read_loop evs (n + 1 - chunk.length) (got ++ chunk)
      else
        some ⟨Status.Ok, got ++ chunk.take (n + 1), unread (chunk.drop (n + 1)) evs, false⟩
  | PollIn.read_fail :: evs, _ + 1, got =>
      some ⟨Status.Error ErrorText.read_failed, got, evs, false⟩
  | PollIn.hup :: evs, _ + 1, got => some ⟨Status.ConnectionClosed, got, evs, false⟩

/-- `AudioStreamBase::pipe_read(data, size)`: the status, the bytes stored at
`data`, and the stream afterwards; `none` when the call never returns. -/
def AudioStreamBase.pipe_read (s : AudioStreamBase) (size : Nat) :
    Option (Status × List Byte × AudioStreamBase) :=
  if s._closed then
    some (Status.ConnectionClosed, [], s)
  else
    (pipe_read_loop s._pipe_in size []).map fun r =>
      (r.status, r.bytes,
        { s with _closed := r.closed, _pipe_in := r.script, bytes_in := s.bytes_in ++ r.bytes })

/-- The `while (size > 0)` loop of `pipe_write`; the second argument is what
is still to be written (`data`, `size`), `put` what has been written. -/
def pipe_write_loop : List PollOut → List Byte → List Byte → Option (LoopResult PollOut)
  | evs, [], put => some ⟨Status.Ok, put, evs, false⟩
  | [], _ :: _, _ => none
  | PollOut.fail rc :: evs, _ :: _, put =>
      some ⟨Status.Error (ErrorText.poll_out_failed rc), put, evs, false⟩
  | PollOut.closed :: evs, _ :: _, put => some ⟨Status.ConnectionClosed, put, evs, true⟩
  | PollOut.timeout :: evs, d :: ds, put => pipe_write_loop evs (d :: ds) put
  | PollOut.room n :: evs, d :: ds, put =>
      if n < (d :: ds).length then
        pipe_write_loop evs ((d :: ds).drop n) (put ++ (d :: ds).take n)
      else
        some ⟨Status.Ok, put ++ d :: ds, unused (n - (d :: ds).length) evs, false⟩
  | PollOut.write_fail :: evs, _ :: _, put =>
      some ⟨Status.Error ErrorText.write_failed, put, evs, false⟩
  | PollOut.hup :: evs, _ :: _, put => some ⟨Status.ConnectionClosed, put, evs, false⟩

/-- `AudioStreamBase::pipe_write(data, size)`. -/
def AudioStreamBase.pipe_write (s : AudioStreamBase) (data : List Byte) :
    Option (Status × AudioStreamBase) :=
  if s._closed then
    some (Status.ConnectionClosed, s)
  else
    (pipe_write_loop s._pipe_out data []).map fun r =>
      (r.status,
        { s with _closed := r.closed, _pipe_out := r.script, bytes_out := s.bytes_out ++ r.bytes })

/-- `AudioStreamBase::receive_bytes`. -/
def AudioStreamBase.receive_bytes (bo : ByteOrder) (s : AudioStreamBase) :
    Option (StatusOr (List Byte) × AudioStreamBase) :=
  match s.pipe_read 4 with
  | none => none
  | some (status, magic_bytes, s1) =>
    if status.is_error then some (StatusOr.of_status status, s1)
    else
      let magic := u32_of_bytes bo magic_bytes
      if magic = CLOSE then
        some (StatusOr.of_status Status.ConnectionClosed, s1)
      else if magic = BLOCK_START then
        match s1.pipe_read 4 with
        | none => none
        | some (status, num_bytes_bytes, s2) =>
          if status.is_error then some (StatusOr.of_status status, s2)
          else
            let num_bytes := u32_of_bytes bo num_bytes_bytes
            match s2.pipe_read num_bytes with
            | none => none
            | some (status, payload, s3) =>
              if status.is_error then some (StatusOr.of_status status, s3)
              else some (StatusOr.of_result payload, s3)
      else
        some (StatusOr.of_status (Status.Error (ErrorText.unexpected_magic magic)), s1)

/-- `AudioStreamBase::send_bytes(data, size)`; `size` is the length of `data`
and `(uint32_t)size` is `size % 2^32`. -/
def AudioStreamBase.send_bytes (bo : ByteOrder) (s : AudioStreamBase) (data : List Byte) :
    Option (Status × AudioStreamBase) :=
  let size := data.length
  if size > 1 <<< 30 then
    some (Status.Error (ErrorText.block_too_large size), s)
  else
    let header := u32_bytes bo BLOCK_START ++ u32_bytes bo (size % 2 ^ 32)
    match s.pipe_write header with
    | none => none
    | some (status, s1) =>
      if status.is_error then some (status, s1)
      else
        match s1.pipe_write data with
        | none => none
        | some (status, s2) =>
          if status.is_error then some (status, s2)
          else some (Status.Ok, s2)

/-! ### Scripts that deliver -/

/-- The bytes a read script holds, in order. -/
def pending : List PollIn → List Byte
  | [] => []
  | PollIn.data chunk :: evs => chunk ++ pending evs
  | _ :: evs => pending evs

/-- A read script without failures, hang-ups or a concurrent `close()`: it
only delivers bytes, in any partition into chunks, with any timeouts between. -/
def delivers : List PollIn → Bool
  | [] => true
  | PollIn.data _ :: evs => delivers evs
  | PollIn.timeout :: evs => delivers evs
  | _ :: _ => false

/-- The room a write script offers in total. -/
def capacity : List PollOut → Nat
  | [] => 0
  | PollOut.room n :: evs => n + capacity evs
  | _ :: evs => capacity evs

/-- A write script without failures, hang-ups or a concurrent `close()`. -/
def accepts : List PollOut → Bool
  | [] => true
  | PollOut.room _ :: evs => accepts evs
  | PollOut.timeout :: evs => accepts evs
  | _ :: _ => false

/-- The frame that carries payload `p`: magic, length, payload. -/
def frame (bo : ByteOrder) (p : List Byte) : List Byte :=
  u32_bytes bo BLOCK_START ++ u32_bytes bo p.length ++ p

/-! ## ProcessorCSoundBase -/

/-- A `CSoundUtil*`: `none` is `nullptr`, `some i` points to the `i`-th
`CSoundUtil` object constructed (objects are told apart by their construction
number, so that an address reused after `delete` is not mistaken for the
object that was there before). -/
abbrev CSoundUtilPtr := Option Nat

/-- A `BufferPtr`: `none` is `nullptr`, `some a` the buffer at address `a`. -/
abbrev BufferPtr := Option Nat

/-- The contents of the buffers, by address. -/
abbrev Memory := Nat → List Byte

/-- `PortDirection` of `processor_spec.h`. -/
inductive PortDirection where
  | Input
  | Output
  deriving DecidableEq, Repr

/-- An entry of `_desc.ports()`: what `port.name()`, `port.type()` and
`port.direction()` return (the type as the number of its enumerator).  The
embedded code hands all three to `CSoundUtil::setup`. -/
structure PortDescription where
  name : List Byte
  type : Nat
  direction : PortDirection
  deriving DecidableEq, Repr

/-- The collaborator `CSoundUtil` (`csound_util.h` is not among the sources):
what its two entry points answer.  `setup` is
`instance->setup(orchestra, score, ports)`, `process_block` is
`instance->process_block(ctxt, time_mapper, _buffers)` for the given object,
with its effect on the buffers. -/
structure CSoundUtil where
  setup : List Byte → List Byte → List PortDescription → Status
  process_block : Nat → List BufferPtr → Memory → Status × Memory

/-- The state of a `ProcessorCSoundBase`.  `allocated` counts the `CSoundUtil`
objects constructed so far, `deleted` lists the objects on which `delete` ran,
in order. -/
structure ProcessorCSoundBase where
  ports : List PortDescription
  _next_instance : CSoundUtilPtr
  _current_instance : CSoundUtilPtr
  _old_instance : CSoundUtilPtr
  _buffers : List BufferPtr
  allocated : Nat
  deleted : List Nat
  memory : Memory

/-- How a call ends: it returns a value, or an `assert` fails. -/
inductive Outcome (α : Type) where
  | returned (value : α)
  | assert_failed
  deriving DecidableEq, Repr

/-- The constructor: all three slots null. -/
def ProcessorCSoundBase.create (ports : List PortDescription) (memory : Memory) :
    ProcessorCSoundBase :=
  { ports := ports, _next_instance := none, _current_instance := none, _old_instance := none,
    _buffers := [], allocated := 0, deleted := [], memory := memory }

/-- The statement `if (p != nullptr) delete p;`. -/
def ProcessorCSoundBase.delete_if_set (st : ProcessorCSoundBase) (p : CSoundUtilPtr) :
    ProcessorCSoundBase :=
  match p with
  | none => st
  | some i => { st with deleted := st.deleted ++ [i] }

/-- `ProcessorCSoundBase::set_code(orchestra, score)`.  The fresh object is
held by a `unique_ptr`, so the early return of `RETURN_IF_ERROR` deletes it. -/
def ProcessorCSoundBase.set_code (cs : CSoundUtil) (st : ProcessorCSoundBase)
    (orchestra score : List Byte) : Outcome (Status × ProcessorCSoundBase) :=
  -- prev_next_instance = _next_instance.exchange(nullptr)
  let prev_next_instance := st._next_instance
  let st := { st with _next_instance := none }
  let st := st.delete_if_set prev_next_instance
  -- old_instance = _old_instance.exchange(nullptr)
  let old_instance := st._old_instance
  let st := { st with _old_instance := none }
  let st := st.delete_if_set old_instance
  -- instance(new CSoundUtil(_host_system))
  let inst := st.allocated
  let st := { st with allocated := st.allocated + 1 }
  let status := cs.setup orchestra score st.ports
  if status.is_error then
    Outcome.returned (status, { st with deleted := st.deleted ++ [inst] })
  else
    -- prev_next_instance = _next_instance.exchange(instance.release())
    let prev_next_instance := st._next_instance
    let st := { st with _next_instance := some inst }
    if prev_next_instance ≠ none then Outcome.assert_failed
    else Outcome.returned (Status.Ok, st)

/-- `vector::resize(n)` with value-initialised (null) new elements. -/
def resize_buffers (bufs : List BufferPtr) (n : Nat) : List BufferPtr :=
  bufs.take n ++ List.replicate (n - bufs.length) none

/-- `ProcessorCSoundBase::setup_internal`; `base` is what
`Processor::setup_internal()` (not among the sources) returns. -/
def ProcessorCSoundBase.setup_internal (base : Status) (st : ProcessorCSoundBase) :
    Status × ProcessorCSoundBase :=
  if base.is_error then (base, st)
  else (Status.Ok, { st with _buffers := resize_buffers st._buffers st.ports.length })

/-- `ProcessorCSoundBase::cleanup_internal` (the part on this class's state). -/
def ProcessorCSoundBase.cleanup_internal (st : ProcessorCSoundBase) : ProcessorCSoundBase :=
  let inst := st._next_instance
  let st := { st with _next_instance := none }
  let st := st.delete_if_set inst
  let inst := st._current_instance
  let st := { st with _current_instance := none }
  let st := st.delete_if_set inst
  let inst := st._old_instance
  let st := { st with _old_instance := none }
  let st := st.delete_if_set inst
  { st with _buffers := [] }

/-- `ProcessorCSoundBase::connect_port_internal(ctxt, port_idx, buf)`. -/
def ProcessorCSoundBase.connect_port_internal (st : ProcessorCSoundBase) (port_idx : Nat)
    (buf : BufferPtr) : Status × ProcessorCSoundBase :=
  if port_idx ≥ st._buffers.length then
    (Status.Error (ErrorText.invalid_port_index port_idx), st)
  else
    (Status.Ok, { st with _buffers := st._buffers.set port_idx buf })

/-- The loop `for (port_idx = 0; port_idx < _buffers.size(); ++port_idx)` of
`process_block_internal`, from index `port_idx` on the rest of the vector: the
first index whose buffer is null. -/
def first_unconnected : List BufferPtr → Nat → Option Nat
  | [], _ => none
  | none :: _, port_idx => some port_idx
  | some _ :: bufs, port_idx => first_unconnected bufs (port_idx + 1)

/-- Whether address `a` is the buffer bound to some output port. -/
def is_output_buffer (ports : List PortDescription) (bufs : List BufferPtr) (a : Nat) : Bool :=
  (List.zip ports bufs).any fun pb => pb.1.direction == PortDirection.Output && pb.2 == some a

/-- Modelled from the spec: `Processor::clear_all_outputs` (the base class
`Processor` of the engine is not among the sources): "it zero-fills all output
buffers".  Every buffer bound to an output port keeps its size and has all
bytes zero afterwards, the others are untouched. -/
def ProcessorCSoundBase.clear_all_outputs (st : ProcessorCSoundBase) : ProcessorCSoundBase :=
  { st with memory := fun a =>
      if is_output_buffer st.ports st._buffers a then List.replicate (st.memory a).length 0
      else st.memory a }

/-- `ProcessorCSoundBase::process_block_internal(ctxt, time_mapper)`. -/
def ProcessorCSoundBase.process_block_internal (cs : CSoundUtil) (st : ProcessorCSoundBase) :
    Outcome (Status × ProcessorCSoundBase) :=
  match first_unconnected st._buffers 0 with
  | some port_idx => Outcome.returned (Status.Error (ErrorText.port_not_connected port_idx), st)
  | none =>
    -- instance = _next_instance.exchange(nullptr)
    let inst := st._next_instance
    let st := { st with _next_instance := none }
    let rotated : Outcome ProcessorCSoundBase :=
      match inst with
      | some i =>
        -- old_instance = _current_instance.exchange(instance)
        let old_instance := st._current_instance
        let st := { st with _current_instance := some i }
        -- old_instance = _old_instance.exchange(old_instance)
        let returned_old := st._old_instance
        let st := { st with _old_instance := old_instance }
        if returned_old ≠ none then Outcome.assert_failed else Outcome.returned st
      | none => Outcome.returned st
    match rotated with
    | Outcome.assert_failed => Outcome.assert_failed
    | Outcome.returned st =>
      -- instance = _current_instance.load()
      match st._current_instance with
      | none => Outcome.returned (Status.Ok, st.clear_all_outputs)
      | some i =>
        let r := cs.process_block i st._buffers st.memory
        Outcome.returned (r.1, { st with memory := r.2 })

/-- The objects the three slots point to. -/
def ProcessorCSoundBase.held (st : ProcessorCSoundBase) : List Nat :=
  st._next_instance.toList ++ st._current_instance.toList ++ st._old_instance.toList

/-- The slots own what they point to: distinct objects, constructed and not
deleted. -/
def ProcessorCSoundBase.slots_valid (st : ProcessorCSoundBase) : Prop :=
  st.held.Nodup ∧ ∀ i ∈ st.held, i < st.allocated ∧ i ∉ st.deleted

/-! ### The hand-off, one atomic exchange at a time -/

/-- Where the control thread stands in `set_code`. -/
inductive PublisherPc where
  /-- about to do `_next_instance.exchange(nullptr)` -/
  | take_next
  /-- about to do `_old_instance.exchange(nullptr)` -/
  | take_old
  /-- about to build the instance and do `_next_instance.exchange(instance)` -/
  | publish
  deriving DecidableEq, Repr

/-- Where the audio thread stands in `process_block_internal`, with its local
variables. -/
inductive ConsumerPc where
  /-- about to do `_next_instance.exchange(nullptr)` -/
  | take_next
  /-- about to do `_current_instance.exchange(instance)` -/
  | install (inst : Nat)
  /-- about to do `_old_instance.exchange(old_instance)` -/
  | retire (old_instance : CSoundUtilPtr)
  /-- about to do `_current_instance.load()` and process the block -/
  | process
  deriving DecidableEq, Repr

/-- The two threads. -/
inductive Thread where
  | control
  | audio
  deriving DecidableEq, Repr

/-- The three slots shared by a control thread that calls `set_code` again and
again and an audio thread that calls `process_block_internal` again and again
(all ports connected, every `setup` succeeding).  `dropped` collects the
non-null pointers returned by an exchange whose result the code asserts to be
null: the assertion fails there, and where assertions are compiled out the
pointer is lost.  `processed` lists what `_current_instance.load()` returned
at each block. -/
structure HandOff where
  next : CSoundUtilPtr
  current : CSoundUtilPtr
  old : CSoundUtilPtr
  publisher : PublisherPc
  consumer : ConsumerPc
  allocated : Nat
  deleted : List Nat
  dropped : List Nat
  processed : List CSoundUtilPtr
  deriving DecidableEq, Repr

/-- Both threads at the start of their functions, all slots null. -/
def HandOff.init : HandOff :=
  { next := none, current := none, old := none, publisher := PublisherPc.take_next,
    consumer := ConsumerPc.take_next, allocated := 0, deleted := [], dropped := [],
    processed := [] }

/-- One atomic step of the given thread: the statements of its function up to
and including its next access to a slot. -/
def HandOff.step (h : HandOff) : Thread → HandOff
  | Thread.control =>
    match h.publisher with
    | PublisherPc.take_next =>
      { h with next := none, deleted := h.deleted ++ h.next.toList,
               publisher := PublisherPc.take_old }
    | PublisherPc.take_old =>
      { h with old := none, deleted := h.deleted ++ h.old.toList,
               publisher := PublisherPc.publish }
    | PublisherPc.publish =>
      { h with next := some h.allocated, allocated := h.allocated + 1,
               dropped := h.dropped ++ h.next.toList, publisher := PublisherPc.take_next }
  | Thread.audio =>
    match h.consumer with
    | ConsumerPc.take_next =>
      match h.next with
      | some i => { h with next := none, consumer := ConsumerPc.install i }
      | none => { h with consumer := ConsumerPc.process }
    | ConsumerPc.install i =>
      { h with current := some i, consumer := ConsumerPc.retire h.current }
    | ConsumerPc.retire old_instance =>
      { h with old := old_instance, dropped := h.dropped ++ h.old.toList,
               consumer := ConsumerPc.process }
    | ConsumerPc.process =>
      { h with processed := h.processed ++ [h.current], consumer := ConsumerPc.take_next }

/-- The interleaving given by a schedule. -/
def HandOff.run (h : HandOff) : List Thread → HandOff
  | [] => h
  | t :: ts => (h.step t).run ts

/-- The objects some pointer still refers to: the slots and the local
variables of the audio thread. -/
def HandOff.held (h : HandOff) : List Nat :=
  h.next.toList ++ h.current.toList ++ h.old.toList ++
    (match h.consumer with
     | ConsumerPc.install i => [i]
     | ConsumerPc.retire old_instance => old_instance.toList
     | _ => [])

/-- The objects constructed so far that are neither referred to nor deleted. -/
def HandOff.leaked (h : HandOff) : List Nat :=
  (List.range h.allocated).filter fun i => !(h.held.contains i) && !(h.deleted.contains i)

/-! ## IPCBackend (noisicore) -/

namespace noisicore

/-- The enumeration `Status::Code` of `noisicore/status.h`. -/
inductive Code where
  | OK
  | ERROR
  deriving DecidableEq, Repr

/-- The message of a `Status` of `noisicore`: one constructor per text the
embedded code builds, with the formatted argument. -/
inductive Message where
  /-- The empty message of `Status::Ok()`. -/
  | empty
  /-- Text "Uninitialized status" of the default constructor. -/
  | uninitialized
  /-- Text "Invalid channel %s" -/
  | invalid_channel (channel : String)
  /-- Text "Channel %s written multiple times." -/
  | channel_written_multiple_times (channel : String)
  /-- A message produced by a collaborator outside the embedded sources. -/
  | external (tag : Nat)
  deriving DecidableEq, Repr

/-- The class `Status` of `noisicore/status.h`. -/
structure Status where
  _code : Code
  _message : Message
  deriving DecidableEq, Repr

/-- `Status::Ok()`. -/
def Status.Ok : Status := { _code := Code.OK, _message := Message.empty }

/-- `Status::Error(message)`. -/
def Status.Error (message : Message) : Status := { _code := Code.ERROR, _message := message }

/-- `Status::is_error`: `_code == Code::ERROR`. -/
def Status.is_error (s : Status) : Bool := decide (s._code = Code.ERROR)

/-- Modelled from the spec: the error kind `DuplicateChannel` ("each channel
may be written at most once; duplicate gives DuplicateChannel").  The sources
have no such code; it is the error with the text "Channel %s written multiple
times." -/
def Status.is_duplicate_channel (s : Status) : Bool :=
  match s._code, s._message with
  | Code.ERROR, Message.channel_written_multiple_times _ => true
  | _, _ => false

/-- The class `StatusOr<T>` of `noisicore/status.h`. -/
structure StatusOr (α : Type) where
  status : Status
  _result : α
  deriving DecidableEq, Repr

/-- An entry of the `buffers` list of a block-data record. -/
structure Buffer where
  id : String
  data : List Byte
  deriving DecidableEq, Repr, Inhabited

/-- Modelled from the spec: the record `capnp::BlockData`, whose schema is not
among the sources ("fields blockSize: u32, samplePos: u64, buffers: list of
(id: string, data: bytes), messages: list of bytes, perfData: bytes"). -/
structure BlockData where
  blockSize : Nat
  samplePos : Nat
  buffers : List Buffer
  messages : List (List Byte)
  perfData : List Byte
  deriving DecidableEq, Repr

/-- Modelled from the spec: `_stream->block_data_builder()`, an empty record
to be filled in. -/
def block_data_builder : BlockData :=
  { blockSize := 0, samplePos := 0, buffers := [], messages := [], perfData := [] }

/-- An array `T x[2]`, indexed by the channel number `c`. -/
structure PerChannel (α : Type) where
  c0 : α
  c1 : α
  deriving DecidableEq, Repr

/-- The element `x[c]`. -/
def PerChannel.get {α : Type} (x : PerChannel α) (c : Nat) : α :=
  if c = 0 then x.c0 else x.c1

/-- The assignment `x[c] = v`. -/
def PerChannel.set {α : Type} (x : PerChannel α) (c : Nat) (v : α) : PerChannel α :=
  if c = 0 then { x with c0 := v } else { x with c1 := v }

/-- The array `new BufferData[size]`: `size` bytes of indeterminate content,
which is what `garbage` gives. -/
def new_buffer (garbage : Nat → Byte) (size : Nat) : List Byte :=
  (List.range size).map garbage

/-- The call `memmove(dst, src, n)` on a destination array `dst`, with `src`
the bytes at the source pointer (at least `n` of them). -/
def memmove (dst src : List Byte) (n : Nat) : List Byte :=
  src.take n ++ dst.drop n

/-- The text `snprintf(id, sizeof(id), "output:%d", b)` leaves in `id`. -/
def output_id (b : Nat) : String :=
  "output:" ++ Nat.repr b

/-- The state of an `IPCBackend`: its fields `_block_size`, `_samples`,
`_channel_written` and `_out_block`, and what it has done to its
collaborators: the arguments of its `_vm->set_block_size` calls, the sizes of
its `new BufferData[...]` allocations and the records it has handed to
`_stream->send_block`, each in order. -/
structure IPCBackend where
  _block_size : Nat
  _samples : PerChannel (List Byte)
  _channel_written : PerChannel Bool
  _out_block : BlockData
  vm_block_sizes : List Nat
  allocations : List Nat
  sent : List BlockData
  deriving DecidableEq, Repr

/-- `IPCBackend::begin_block`.  `stor_request` is what
`_stream->receive_block()` returns and `garbage` the content of newly
allocated memory. -/
def IPCBackend.begin_block (st : IPCBackend) (stor_request : StatusOr BlockData)
    (garbage : Nat → Byte) : Status × IPCBackend :=
  if stor_request.status.is_error then (stor_request.status, st)
  else
    let request := stor_request._result
    let st := { st with _out_block :=
      { block_data_builder with blockSize := request.blockSize,
                                samplePos := request.samplePos } }
    let st :=
      if st._block_size ≠ request.blockSize then
        let st := { st with _block_size := request.blockSize }
        let st := [0, 1].foldl (fun (st : IPCBackend) c =>
          { st with _samples := st._samples.set c (new_buffer garbage (st._block_size * 4)),
                    allocations := st.allocations ++ [st._block_size * 4] }) st
        { st with vm_block_sizes := st.vm_block_sizes ++ [st._block_size] }
      else st
    let st := [0, 1].foldl (fun (st : IPCBackend) c =>
      { st with _channel_written := st._channel_written.set c false }) st
    (Status.Ok, st)

/-- `IPCBackend::end_block`.  `send_block` is what `_stream->send_block`
answers to the record it is handed. -/
def IPCBackend.end_block (send_block : BlockData → Status) (st : IPCBackend) :
    Status × IPCBackend :=
  let num_buffers := [0, 1].foldl (fun (n : Nat) c =>
    if st._channel_written.get c then n + 1 else n) 0
  -- auto buffers = _out_block.initBuffers(num_buffers)
  let buffers : List Buffer := List.replicate num_buffers default
  let filled := [0, 1].foldl (fun (acc : List Buffer × Nat) c =>
    if st._channel_written.get c then
      (acc.1.set acc.2
        { id := output_id acc.2, data := (st._samples.get c).take (st._block_size * 4) },
       acc.2 + 1)
    else acc) (buffers, 0)
  let out_block := { st._out_block with buffers := filled.1 }
  let status := send_block out_block
  let st := { st with _out_block := out_block, sent := st.sent ++ [out_block] }
  if status.is_error then (status, st) else (Status.Ok, st)

/-- `IPCBackend::output(channel, samples)`; `samples` is the bytes at the
pointer passed, of which `_block_size * sizeof(float)` are copied. -/
def IPCBackend.output (st : IPCBackend) (channel : String) (samples : List Byte) :
    Status × IPCBackend :=
  let c : Option Nat :=
    if channel = "left" then some 0
    else if channel = "right" then some 1
    else none
  match c with
  | none => (Status.Error (Message.invalid_channel channel), st)
  | some c =>
    if st._channel_written.get c then
      (Status.Error (Message.channel_written_multiple_times channel), st)
    else
      (Status.Ok,
        { st with _channel_written := st._channel_written.set c true,
                  _samples := st._samples.set c
                    (memmove (st._samples.get c) samples (st._block_size * 4)) })

/-- A run of `output` calls, in order: their results and the state after. -/
def IPCBackend.outputs (st : IPCBackend) : List (String × List Byte) → List Status × IPCBackend
  | [] => ([], st)
  | (channel, samples) :: calls =>
    let r := st.output channel samples
    let rs := IPCBackend.outputs r.2 calls
    (r.1 :: rs.1, rs.2)

/-- Both staging arrays hold `_block_size` floats, as `setup` and
`begin_block` allocate them. -/
def IPCBackend.sized (st : IPCBackend) : Prop :=
  st._samples.c0.length = st._block_size * 4 ∧ st._samples.c1.length = st._block_size * 4

end noisicore

/-! ## ControlValue -/

/-- The enumeration `ControlValueType` of `control_value.h`. -/
inductive ControlValueType where
  | FloatCV
  | IntCV
  deriving DecidableEq, Repr

/-- The object representation of a `float`; the embedded code only stores and
returns such values. -/
abbrev FloatBits := Nat

/-- The class `ControlValue`: its private fields `_type`, `_name` and
`_generation` (a `uint32_t`). -/
structure ControlValue where
  _type : ControlValueType
  _name : String
  _generation : Nat
  deriving DecidableEq, Repr

/-- `ControlValue::generation()`. -/
def ControlValue.generation (cv : ControlValue) : Nat := cv._generation

/-- `ControlValue::set_generation(uint32_t generation)`. -/
def ControlValue.set_generation (cv : ControlValue) (generation : Nat) : ControlValue :=
  { cv with _generation := generation % 2 ^ 32 }

/-- The class `FloatControlValue`. -/
structure FloatControlValue extends ControlValue where
  _value : FloatBits
  deriving DecidableEq, Repr

/-- `FloatControlValue::set_value(float value, uint32_t generation)`. -/
def FloatControlValue.set_value (cv : FloatControlValue) (value : FloatBits) (generation : Nat) :
    FloatControlValue :=
  { cv with _value := value, toControlValue := cv.toControlValue.set_generation generation }

/-- The class `IntControlValue`. -/
structure IntControlValue extends ControlValue where
  _value : Int
  deriving DecidableEq, Repr

/-- `IntControlValue::set_value(int64_t value, uint32_t generation)`. -/
def IntControlValue.set_value (cv : IntControlValue) (value : Int) (generation : Nat) :
    IntControlValue :=
  { cv with _value := value, toControlValue := cv.toControlValue.set_generation generation }

/-- What `generation()` returns after each of a run of `set_value` calls on a
`FloatControlValue`, given as (value, generation) pairs in order. -/
def FloatControlValue.exposed (cv : FloatControlValue) : List (FloatBits × Nat) → List Nat
  | [] => []
  | (value, generation) :: updates =>
    (cv.set_value value generation).generation ::
      FloatControlValue.exposed (cv.set_value value generation) updates

/-- What `generation()` returns after each of a run of `set_value` calls on an
`IntControlValue`. -/
def IntControlValue.exposed (cv : IntControlValue) : List (Int × Nat) → List Nat
  | [] => []
  | (value, generation) :: updates =>
    (cv.set_value value generation).generation ::
      IntControlValue.exposed (cv.set_value value generation) updates

/-! ## Runs of calls -/

/-- A call on a stream. -/
inductive StreamCall where
  | receive_bytes
  | send_bytes (data : List Byte)
  deriving DecidableEq, Repr

/-- The status a call on a stream returns, and the stream afterwards. -/
def AudioStreamBase.call (bo : ByteOrder) (s : AudioStreamBase) :
    StreamCall → Option (Status × AudioStreamBase)
  | StreamCall.receive_bytes => (s.receive_bytes bo).map fun r => (r.1.status, r.2)
  | StreamCall.send_bytes data => s.send_bytes bo data

/-- A run of calls on a stream, each after the previous one has returned:
the statuses they return and the stream afterwards. -/
def AudioStreamBase.calls (bo : ByteOrder) (s : AudioStreamBase) :
    List StreamCall → Option (List Status × AudioStreamBase)
  | [] => some ([], s)
  | c :: cs =>
    match s.call bo c with
    | none => none
    | some (status, s1) =>
      match AudioStreamBase.calls bo s1 cs with
      | none => none
      | some (statuses, s2) => some (status :: statuses, s2)

/-- A call on a `ProcessorCSoundBase`. -/
inductive ProcessorCall where
  | set_code (orchestra score : List Byte)
  | process_block_internal
  | cleanup_internal
  deriving DecidableEq, Repr

/-- The processor after a call that runs to completion, or the failure of an
assertion in it. -/
def ProcessorCSoundBase.call (cs : CSoundUtil) (st : ProcessorCSoundBase) :
    ProcessorCall → Outcome ProcessorCSoundBase
  | ProcessorCall.set_code orchestra score =>
    match st.set_code cs orchestra score with
    | Outcome.returned r => Outcome.returned r.2
    | Outcome.assert_failed => Outcome.assert_failed
  | ProcessorCall.process_block_internal =>
    match st.process_block_internal cs with
    | Outcome.returned r => Outcome.returned r.2
    | Outcome.assert_failed => Outcome.assert_failed
  | ProcessorCall.cleanup_internal => Outcome.returned st.cleanup_internal

/-- A run of calls, each after the previous one has returned: the states
after each call, or the failure of an assertion in one of them. -/
def ProcessorCSoundBase.calls (cs : CSoundUtil) (st : ProcessorCSoundBase) :
    List ProcessorCall → Outcome (List ProcessorCSoundBase)
  | [] => Outcome.returned []
  | c :: rest =>
    match st.call cs c with
    | Outcome.assert_failed => Outcome.assert_failed
    | Outcome.returned st1 =>
      match ProcessorCSoundBase.calls cs st1 rest with
      | Outcome.assert_failed => Outcome.assert_failed
      | Outcome.returned states => Outcome.returned (st1 :: states)

/-- The publisher invariant: a non-empty `next` implies an empty `old`. -/
def ProcessorCSoundBase.next_implies_old_empty (st : ProcessorCSoundBase) : Prop :=
  st._next_instance ≠ none → st._old_instance = none

/-! ## Concrete streams, processors and schedules -/

/-- An open sender whose pipe takes three bytes, stalls, then has room for 64
more and hangs up after that. -/
def sender0 : AudioStreamBase :=
  { _closed := false, _pipe_in := [],
    _pipe_out := [PollOut.room 3, PollOut.timeout, PollOut.room 64, PollOut.hup],
    bytes_in := [], bytes_out := [] }

/-- The sender `sender0` after `send_bytes [1, 2, 3]` on a little-endian host. -/
def sender1 : AudioStreamBase :=
  { _closed := false, _pipe_in := [], _pipe_out := [PollOut.room 56, PollOut.hup],
    bytes_in := [], bytes_out := [0x21, 0x4b, 0x4c, 0x42, 3, 0, 0, 0, 1, 2, 3] }

/-- An open receiver whose pipe delivers the frame of `[1, 2, 3]` in three
reads that do not respect the field boundaries, followed by two more bytes and
a hang-up. -/
def receiver0 : AudioStreamBase :=
  { _closed := false,
    _pipe_in := [PollIn.data [0x21, 0x4b, 0x4c], PollIn.timeout,
                 PollIn.data [0x42, 3, 0, 0, 0, 1, 2], PollIn.data [3, 9, 9], PollIn.hup],
    _pipe_out := [], bytes_in := [], bytes_out := [] }

/-- An open receiver whose pipe delivers the given bytes in two reads and then
fails. -/
def receiver_of (first second : List Byte) : AudioStreamBase :=
  { _closed := false,
    _pipe_in := [PollIn.data first, PollIn.timeout, PollIn.data second, PollIn.read_fail],
    _pipe_out := [], bytes_in := [], bytes_out := [] }

/-- An open sender whose pipe has room for a frame of 2^30 payload bytes. -/
def big_sender : AudioStreamBase :=
  { _closed := false, _pipe_in := [], _pipe_out := [PollOut.room 1073741832],
    bytes_in := [], bytes_out := [] }

/-- An open receiver whose pipe delivers, in one piece, the frame of the given
payload. -/
def receiver_of_frame (bo : ByteOrder) (p : List Byte) : AudioStreamBase :=
  { _closed := false, _pipe_in := [PollIn.data (frame bo p)], _pipe_out := [],
    bytes_in := [], bytes_out := [] }

/-- A `CSoundUtil` whose `setup` succeeds and whose `process_block` returns
Ok and writes the number of the object it ran on to buffer 0. -/
def csound_ok : CSoundUtil :=
  { setup := fun _ _ _ => Status.Ok,
    process_block := fun i _ m => (Status.Ok, fun a => if a = 0 then [Fin.ofNat i] else m a) }

/-- A `CSoundUtil` whose `setup` fails. -/
def csound_bad : CSoundUtil :=
  { setup := fun _ _ _ => Status.Error (ErrorText.external 1),
    process_block := fun _ _ m => (Status.Ok, m) }

/-- A processor with one input and one output port, bound to buffers 0 and 1,
with object 1 current and object 2 published. -/
def processor_swapping : ProcessorCSoundBase :=
  { ports := [⟨[], 0, PortDirection.Input⟩, ⟨[], 0, PortDirection.Output⟩],
    _next_instance := some 2, _current_instance := some 1, _old_instance := none,
    _buffers := [some 0, some 1], allocated := 3, deleted := [0],
    memory := fun _ => [5, 5] }

/-- A freshly constructed processor without ports. -/
def processor_fresh : ProcessorCSoundBase :=
  ProcessorCSoundBase.create [] fun _ => []

/-- A processor whose three slots are taken, by objects 0, 1 and 2. -/
def processor_full : ProcessorCSoundBase :=
  { ports := [], _next_instance := some 0, _current_instance := some 1, _old_instance := some 2,
    _buffers := [], allocated := 3, deleted := [], memory := fun _ => [] }

/-- A schedule of one control thread and one audio thread: `set_code` runs,
a block is processed, `set_code` runs again, the audio thread takes the new
object and installs it, then `set_code` runs a third time before the audio
thread retires the object it replaced; the audio thread then finishes that
block and goes through the rotation of the next one. -/
def racing_schedule : List Thread :=
  [Thread.control, Thread.control, Thread.control,
   Thread.audio, Thread.audio, Thread.audio, Thread.audio,
   Thread.control, Thread.control, Thread.control,
   Thread.audio, Thread.audio,
   Thread.control, Thread.control, Thread.control,
   Thread.audio, Thread.audio,
   Thread.audio, Thread.audio, Thread.audio]

/-- A processor with an input port on buffer 0 and an output port on buffer
1, both holding two non-zero bytes, and no object in any slot. -/
def processor_idle : ProcessorCSoundBase :=
  { ports := [⟨[], 0, PortDirection.Input⟩, ⟨[], 0, PortDirection.Output⟩],
    _next_instance := none, _current_instance := none, _old_instance := none,
    _buffers := [some 0, some 1], allocated := 0, deleted := [],
    memory := fun _ => [5, 5] }

/-- A float control value whose generation is 5. -/
def float_value_at_5 : FloatControlValue :=
  { _type := ControlValueType.FloatCV, _name := "gain", _generation := 5, _value := 0 }

/-- An int control value whose generation is 0. -/
def int_value_at_0 : IntControlValue :=
  { _type := ControlValueType.IntCV, _name := "steps", _generation := 0, _value := 0 }

/-- A backend with block size 2 (eight bytes per staging array), nothing
written yet. -/
def noisicore.backend_idle : noisicore.IPCBackend :=
  { _block_size := 2,
    _samples := { c0 := [1, 1, 1, 1, 1, 1, 1, 1], c1 := [2, 2, 2, 2, 2, 2, 2, 2] },
    _channel_written := { c0 := false, c1 := false },
    _out_block := noisicore.block_data_builder,
    vm_block_sizes := [], allocations := [], sent := [] }

/-- A backend with block size 2 in a block in which only `right` has been
written. -/
def noisicore.backend_right_only : noisicore.IPCBackend :=
  { _block_size := 2,
    _samples := { c0 := [1, 1, 1, 1, 1, 1, 1, 1], c1 := [0, 0, 0, 64, 0, 0, 0, 64] },
    _channel_written := { c0 := false, c1 := true },
    _out_block := { noisicore.block_data_builder with blockSize := 2, samplePos := 1000 },
    vm_block_sizes := [], allocations := [], sent := [] }

/-- A request for a block of 2 frames at sample position 1000. -/
def noisicore.request_2 : noisicore.StatusOr noisicore.BlockData :=
  { status := noisicore.Status.Ok,
    _result := { blockSize := 2, samplePos := 1000, buffers := [], messages := [],
                 perfData := [] } }

/-- A request for a block of 3 frames at sample position 1002. -/
def noisicore.request_3 : noisicore.StatusOr noisicore.BlockData :=
  { status := noisicore.Status.Ok,
    _result := { blockSize := 3, samplePos := 1002, buffers := [], messages := [],
                 perfData := [] } }

/-- A stream whose `send_block` always succeeds. -/
def noisicore.stream_ok : noisicore.BlockData → noisicore.Status :=
  fun _ => noisicore.Status.Ok

/-! ## Lemmas on the pipes and the codec -/

theorem u32_bytes_length (bo : ByteOrder) (v : Nat) : (u32_bytes bo v).length = 4 := by
  cases bo <;> simp [u32_bytes, u32_bytes_le]

theorem u32_of_bytes_u32_bytes (bo : ByteOrder) (v : Nat) (hv : v < 2 ^ 32) :
    u32_of_bytes bo (u32_bytes bo v) = v := by
  have h0 : (Fin.ofNat (v % 256) : Fin 256).val = v % 256 := by
    simp [Fin.ofNat]
  have h1 : (Fin.ofNat (v / 256 % 256) : Fin 256).val = v / 256 % 256 := by
    simp [Fin.ofNat]
  have h2 : (Fin.ofNat (v / 65536 % 256) : Fin 256).val = v / 65536 % 256 := by
    simp [Fin.ofNat]
  have h3 : (Fin.ofNat (v / 16777216 % 256) : Fin 256).val = v / 16777216 % 256 := by
    simp [Fin.ofNat]
  cases bo <;>
    simp only [u32_of_bytes, u32_bytes, u32_bytes_le, List.reverse_reverse, u32_of_bytes_le,
      h0, h1, h2, h3] <;> omega

theorem magic_ne : BLOCK_START ≠ CLOSE := by decide

theorem frame_length (bo : ByteOrder) (p : List Byte) : (frame bo p).length = 8 + p.length := by
  simp only [frame, List.length_append, u32_bytes_length]

theorem pending_unread (left : List Byte) (evs : List PollIn) :
    pending (unread left evs) = left ++ pending evs := by
  unfold unread
  cases left <;> simp [pending]

theorem delivers_unread (left : List Byte) (evs : List PollIn) (h : delivers evs = true) :
    delivers (unread left evs) = true := by
  unfold unread
  split <;> simp [delivers, h]

theorem unread_append (left : List Byte) (evs later : List PollIn) :
    unread left (evs ++ later) = unread left evs ++ later := by
  unfold unread
  split <;> rfl

theorem pipe_read_loop_zero (evs : List PollIn) (got : List Byte) :
    pipe_read_loop evs 0 got = some ⟨Status.Ok, got, evs, false⟩ := by
  cases evs <;> simp [pipe_read_loop]

/-- A script that begins with a delivering part holding `bs ++ rest` serves a
read of `|bs|` bytes from that part, whatever comes later. -/
theorem pipe_read_loop_delivers (evs later : List PollIn) :
    ∀ (n : Nat) (got bs rest : List Byte), delivers evs = true → pending evs = bs ++ rest →
      bs.length = n →
      ∃ evs', pipe_read_loop (evs ++ later) n got =
          some ⟨Status.Ok, got ++ bs, evs' ++ later, false⟩ ∧
        delivers evs' = true ∧ pending evs' = rest := by
  induction evs with
  | nil =>
    intro n got bs rest _ hp hn
    simp only [pending] at hp
    have hb : bs = [] := by
      cases bs with
      | nil => rfl
      | cons b bs => simp at hp
    subst hb
    simp at hn hp
    subst hn
    exact ⟨[], by simp [pipe_read_loop_zero], rfl, by simp [pending, hp]⟩
  | cons ev evs ih =>
    intro n got bs rest hd hp hn
    cases n with
    | zero =>
      have hb : bs = [] := List.length_eq_zero.mp hn
      subst hb
      exact ⟨ev :: evs, by simp [pipe_read_loop_zero], hd, by simpa using hp⟩
    | succ n =>
      cases ev with
      | fail rc => simp [delivers] at hd
      | closed => simp [delivers] at hd
      | read_fail => simp [delivers] at hd
      | hup => simp [delivers] at hd
      | timeout =>
        simp only [delivers] at hd
        simp only [pending] at hp
        simpa [pipe_read_loop] using ih (n + 1) got bs rest hd hp hn
      | data chunk =>
        simp only [delivers] at hd
        simp only [pending] at hp
        by_cases hlt : chunk.length < n + 1
        · have hbs : bs = chunk ++ bs.drop chunk.length := by
            have h1 : (chunk ++ pending evs).take chunk.length = (bs ++ rest).take chunk.length := by
              rw [hp]
            rw [List.take_left, List.take_append_of_le_length (by omega)] at h1
            conv_lhs => rw [← List.take_append_drop chunk.length bs, ← h1]
          have hp2 : pending evs = bs.drop chunk.length ++ rest := by
            have h1 : (chunk ++ pending evs).drop chunk.length = (bs ++ rest).drop chunk.length := by
              rw [hp]
            rw [List.drop_left, List.drop_append_of_le_length (by omega)] at h1
            exact h1
          obtain ⟨evs', he, hd', hp'⟩ :=
            ih (n + 1 - chunk.length) (got ++ chunk) (bs.drop chunk.length) rest hd hp2
              (by simp; omega)
          refine ⟨evs', ?_, hd', hp'⟩
          rw [List.cons_append]
          simp only [pipe_read_loop, hlt, if_true]
          rw [he, List.append_assoc, ← hbs]
        · have hbs : bs = chunk.take (n + 1) := by
            have h1 : (chunk ++ pending evs).take (n + 1) = (bs ++ rest).take (n + 1) := by
              rw [hp]
            rw [List.take_append_of_le_length (by omega), ← hn, List.take_left] at h1
            rw [hn] at h1
            exact h1.symm
          have hrest : rest = chunk.drop (n + 1) ++ pending evs := by
            have h1 : (chunk ++ pending evs).drop (n + 1) = (bs ++ rest).drop (n + 1) := by
              rw [hp]
            rw [List.drop_append_of_le_length (by omega), ← hn, List.drop_left] at h1
            rw [hn] at h1
            exact h1.symm
          refine ⟨unread (chunk.drop (n + 1)) evs, ?_, delivers_unread _ _ hd, ?_⟩
          · rw [List.cons_append]
            simp only [pipe_read_loop, hlt, if_false]
            rw [hbs, unread_append]
          · rw [pending_unread, hrest]

theorem pipe_read_delivers (s : AudioStreamBase) (evs later : List PollIn) (n : Nat)
    (bs rest : List Byte) (ho : s._closed = false) (hs : s._pipe_in = evs ++ later)
    (hd : delivers evs = true) (hp : pending evs = bs ++ rest) (hn : bs.length = n) :
    ∃ s' evs', s.pipe_read n = some (Status.Ok, bs, s') ∧ s'._closed = false ∧
      s'._pipe_in = evs' ++ later ∧ delivers evs' = true ∧ pending evs' = rest ∧
      s'.bytes_in = s.bytes_in ++ bs ∧ s'._pipe_out = s._pipe_out ∧
      s'.bytes_out = s.bytes_out := by
  obtain ⟨evs', he, hd', hp'⟩ := pipe_read_loop_delivers evs later n [] bs rest hd hp hn
  refine ⟨{ s with _closed := false, _pipe_in := evs' ++ later, bytes_in := s.bytes_in ++ bs },
    evs', ?_, rfl, rfl, hd', hp', rfl, rfl, rfl⟩
  simp [AudioStreamBase.pipe_read, ho, hs, he]

theorem receive_bytes_close (bo : ByteOrder) (s : AudioStreamBase) (evs later : List PollIn)
    (m rest : List Byte) (ho : s._closed = false) (hs : s._pipe_in = evs ++ later)
    (hd : delivers evs = true) (hm : m.length = 4) (hp : pending evs = m ++ rest)
    (hc : u32_of_bytes bo m = CLOSE) :
    ∃ s' evs', s.receive_bytes bo = some (⟨Status.ConnectionClosed, []⟩, s') ∧
      s'.bytes_in = s.bytes_in ++ m ∧ s'._pipe_in = evs' ++ later ∧ pending evs' = rest := by
  obtain ⟨s1, evs1, h1, _, hs1, _, hp1, hb1, _, _⟩ :=
    pipe_read_delivers s evs later 4 m rest ho hs hd hp hm
  refine ⟨s1, evs1, ?_, hb1, hs1, hp1⟩
  simp [AudioStreamBase.receive_bytes, h1, Status.is_error, hc, StatusOr.of_status]
  rfl

theorem receive_bytes_other (bo : ByteOrder) (s : AudioStreamBase) (evs later : List PollIn)
    (m rest : List Byte) (ho : s._closed = false) (hs : s._pipe_in = evs ++ later)
    (hd : delivers evs = true) (hm : m.length = 4) (hp : pending evs = m ++ rest)
    (hc : u32_of_bytes bo m ≠ CLOSE) (hb : u32_of_bytes bo m ≠ BLOCK_START) :
    ∃ s' evs', s.receive_bytes bo =
        some (⟨Status.Error (ErrorText.unexpected_magic (u32_of_bytes bo m)), []⟩, s') ∧
      s'.bytes_in = s.bytes_in ++ m ∧ s'._pipe_in = evs' ++ later ∧ pending evs' = rest := by
  obtain ⟨s1, evs1, h1, _, hs1, _, hp1, hb1, _, _⟩ :=
    pipe_read_delivers s evs later 4 m rest ho hs hd hp hm
  refine ⟨s1, evs1, ?_, hb1, hs1, hp1⟩
  simp [AudioStreamBase.receive_bytes, h1, Status.is_error, hc, hb, StatusOr.of_status]
  rfl

theorem receive_bytes_block (bo : ByteOrder) (s : AudioStreamBase) (evs later : List PollIn)
    (m len payload rest : List Byte) (ho : s._closed = false) (hs : s._pipe_in = evs ++ later)
    (hd : delivers evs = true) (hm : m.length = 4)
    (hl : len.length = 4) (hn : payload.length = u32_of_bytes bo len)
    (hp : pending evs = m ++ len ++ payload ++ rest)
    (hb : u32_of_bytes bo m = BLOCK_START) :
    ∃ s' evs', s.receive_bytes bo = some (⟨Status.Ok, payload⟩, s') ∧
      s'.bytes_in = s.bytes_in ++ (m ++ len ++ payload) ∧ s'._pipe_in = evs' ++ later ∧
      pending evs' = rest ∧ s'._closed = false ∧ delivers evs' = true := by
  obtain ⟨s1, evs1, h1, ho1, hs1, hd1, hp1, hb1, _, _⟩ :=
    pipe_read_delivers s evs later 4 m (len ++ payload ++ rest) ho hs hd (by simpa using hp) hm
  obtain ⟨s2, evs2, h2, ho2, hs2, hd2, hp2, hb2, _, _⟩ :=
    pipe_read_delivers s1 evs1 later 4 len (payload ++ rest) ho1 hs1 hd1 (by simpa using hp1) hl
  obtain ⟨s3, evs3, h3, ho3, hs3, hd3, hp3, hb3, _, _⟩ :=
    pipe_read_delivers s2 evs2 later (u32_of_bytes bo len) payload rest ho2 hs2 hd2 hp2 hn
  refine ⟨s3, evs3, ?_, ?_, hs3, hp3, ho3, hd3⟩
  · have hne : BLOCK_START ≠ CLOSE := magic_ne
    simp [AudioStreamBase.receive_bytes, h1, h2, h3, Status.is_error, hb, hne,
      StatusOr.of_result]
  · rw [hb3, hb2, hb1]; simp

theorem receive_bytes_frame (bo : ByteOrder) (s : AudioStreamBase) (evs later : List PollIn)
    (payload rest : List Byte) (ho : s._closed = false) (hs : s._pipe_in = evs ++ later)
    (hd : delivers evs = true) (hlen : payload.length < 2 ^ 32)
    (hp : pending evs = frame bo payload ++ rest) :
    ∃ s' evs', s.receive_bytes bo = some (⟨Status.Ok, payload⟩, s') ∧
      s'.bytes_in = s.bytes_in ++ frame bo payload ∧ s'._pipe_in = evs' ++ later ∧
      pending evs' = rest ∧ s'._closed = false ∧ delivers evs' = true :=
  receive_bytes_block bo s evs later (u32_bytes bo BLOCK_START) (u32_bytes bo payload.length)
    payload rest ho hs hd (u32_bytes_length _ _) (u32_bytes_length _ _)
    (u32_of_bytes_u32_bytes bo _ hlen).symm hp
    (u32_of_bytes_u32_bytes bo _ (by decide))

theorem capacity_unused (left : Nat) (evs : List PollOut) :
    capacity (unused left evs) = left + capacity evs := by
  unfold unused
  split
  · next h => simp [h]
  · simp [capacity]

theorem accepts_unused (left : Nat) (evs : List PollOut) (h : accepts evs = true) :
    accepts (unused left evs) = true := by
  unfold unused
  split <;> simp [accepts, h]

theorem unused_append (left : Nat) (evs later : List PollOut) :
    unused left (evs ++ later) = unused left evs ++ later := by
  unfold unused
  split <;> rfl

theorem pipe_write_loop_nil (evs : List PollOut) (put : List Byte) :
    pipe_write_loop evs [] put = some ⟨Status.Ok, put, evs, false⟩ := by
  cases evs <;> simp [pipe_write_loop]

/-- A script that begins with an accepting part with room for `data` takes
all of `data` in that part, whatever comes later. -/
theorem pipe_write_loop_accepts (evs later : List PollOut) :
    ∀ (data put : List Byte), accepts evs = true → data.length ≤ capacity evs →
      ∃ evs', pipe_write_loop (evs ++ later) data put =
          some ⟨Status.Ok, put ++ data, evs' ++ later, false⟩ ∧
        accepts evs' = true ∧ capacity evs' + data.length = capacity evs := by
  induction evs with
  | nil =>
    intro data put _ hc
    simp only [capacity, Nat.le_zero, List.length_eq_zero] at hc
    subst hc
    exact ⟨[], by simp [pipe_write_loop_nil], rfl, rfl⟩
  | cons ev evs ih =>
    intro data put ha hc
    cases data with
    | nil => exact ⟨ev :: evs, by simp [pipe_write_loop_nil], ha, rfl⟩
    | cons d ds =>
      cases ev with
      | fail rc => simp [accepts] at ha
      | closed => simp [accepts] at ha
      | write_fail => simp [accepts] at ha
      | hup => simp [accepts] at ha
      | timeout =>
        simp only [accepts] at ha
        simp only [capacity] at hc
        simpa [pipe_write_loop, capacity] using ih (d :: ds) put ha hc
      | room n =>
        simp only [accepts] at ha
        simp only [capacity] at hc
        by_cases hlt : n < (d :: ds).length
        · obtain ⟨evs', he, ha', hc'⟩ :=
            ih ((d :: ds).drop n) (put ++ (d :: ds).take n) ha (by simp; simp at hc; omega)
          refine ⟨evs', ?_, ha', ?_⟩
          · rw [List.cons_append]
            simp only [pipe_write_loop, hlt, if_true]
            rw [he, List.append_assoc, List.take_append_drop]
          · simp only [capacity]
            simp at hc' hlt ⊢
            omega
        · refine ⟨unused (n - (d :: ds).length) evs, ?_, accepts_unused _ _ ha, ?_⟩
          · rw [List.cons_append]
            simp only [pipe_write_loop, hlt, if_false]
            rw [unused_append]
          · rw [capacity_unused]
            simp only [capacity]
            omega

/-- Whatever the script, a write loop that ends with Ok has written all of
`data` and has not seen `_closed` set. -/
theorem pipe_write_loop_ok (evs : List PollOut) :
    ∀ (data put : List Byte) (r : LoopResult PollOut),
      pipe_write_loop evs data put = some r → r.status = Status.Ok →
      r.bytes = put ++ data ∧ r.closed = false := by
  induction evs with
  | nil =>
    intro data put r h hs
    cases data with
    | nil => simp [pipe_write_loop] at h; subst h; simp
    | cons d ds => simp [pipe_write_loop] at h
  | cons ev evs ih =>
    intro data put r h hs
    cases data with
    | nil => simp [pipe_write_loop] at h; subst h; simp
    | cons d ds =>
      cases ev with
      | fail rc => simp [pipe_write_loop] at h; subst h; simp at hs
      | closed => simp [pipe_write_loop] at h; subst h; simp at hs
      | write_fail => simp [pipe_write_loop] at h; subst h; simp at hs
      | hup => simp [pipe_write_loop] at h; subst h; simp at hs
      | timeout =>
        simp only [pipe_write_loop] at h
        exact ih _ _ r h hs
      | room n =>
        simp only [pipe_write_loop] at h
        split at h
        · obtain ⟨h1, h2⟩ := ih _ _ r h hs
          refine ⟨?_, h2⟩
          rw [h1, List.append_assoc, List.take_append_drop]
        · simp at h; subst h; simp

theorem pipe_write_accepts (s : AudioStreamBase) (evs later : List PollOut) (data : List Byte)
    (ho : s._closed = false) (hs : s._pipe_out = evs ++ later) (ha : accepts evs = true)
    (hc : data.length ≤ capacity evs) :
    ∃ s' evs', s.pipe_write data = some (Status.Ok, s') ∧ s'._closed = false ∧
      s'._pipe_out = evs' ++ later ∧ accepts evs' = true ∧
      capacity evs' + data.length = capacity evs ∧
      s'.bytes_out = s.bytes_out ++ data ∧ s'._pipe_in = s._pipe_in ∧
      s'.bytes_in = s.bytes_in := by
  obtain ⟨evs', he, ha', hc'⟩ := pipe_write_loop_accepts evs later data [] ha hc
  refine ⟨{ s with _closed := false, _pipe_out := evs' ++ later,
                   bytes_out := s.bytes_out ++ data }, evs', ?_,
    rfl, rfl, ha', hc', rfl, rfl, rfl⟩
  simp [AudioStreamBase.pipe_write, ho, hs, he]

theorem pipe_write_ok (s s' : AudioStreamBase) (data : List Byte)
    (ho : s._closed = false) (h : s.pipe_write data = some (Status.Ok, s')) :
    s'.bytes_out = s.bytes_out ++ data ∧ s'._closed = false := by
  simp only [AudioStreamBase.pipe_write, ho, Bool.false_eq_true, if_false, Option.map_eq_some',
    Prod.mk.injEq] at h
  obtain ⟨r, hr, hs, hs'⟩ := h
  obtain ⟨h1, h2⟩ := pipe_write_loop_ok _ _ _ r hr hs
  subst hs'
  simp [h1, h2]

/-- The header and the payload of a frame, for lengths that fit 32 bits. -/
theorem header_eq (bo : ByteOrder) (p : List Byte) (h : p.length ≤ 1 <<< 30) :
    u32_bytes bo BLOCK_START ++ u32_bytes bo (p.length % 2 ^ 32) ++ p = frame bo p := by
  have h30 : (1 <<< 30 : Nat) = 1073741824 := by decide
  rw [h30] at h
  rw [Nat.mod_eq_of_lt (by omega)]
  rfl

theorem send_bytes_accepts (bo : ByteOrder) (s : AudioStreamBase) (evs later : List PollOut)
    (p : List Byte) (ho : s._closed = false) (hs : s._pipe_out = evs ++ later)
    (ha : accepts evs = true) (hc : 8 + p.length ≤ capacity evs) (hp : p.length ≤ 1 <<< 30) :
    ∃ s' evs', s.send_bytes bo p = some (Status.Ok, s') ∧
      s'.bytes_out = s.bytes_out ++ frame bo p ∧ s'._closed = false ∧
      s'._pipe_out = evs' ++ later ∧ capacity evs' + (8 + p.length) = capacity evs := by
  have hh : (u32_bytes bo BLOCK_START ++ u32_bytes bo (p.length % 2 ^ 32)).length = 8 := by
    simp [u32_bytes_length]
  obtain ⟨s1, evs1, h1, ho1, hs1, ha1, hc1, hb1, _, _⟩ :=
    pipe_write_accepts s evs later _ ho hs ha (by rw [hh]; omega)
  obtain ⟨s2, evs2, h2, ho2, hs2, _, hc2, hb2, _, _⟩ :=
    pipe_write_accepts s1 evs1 later p ho1 hs1 ha1 (by rw [hh] at hc1; omega)
  refine ⟨s2, evs2, ?_, ?_, ho2, hs2, ?_⟩
  · simp only [AudioStreamBase.send_bytes, gt_iff_lt, Nat.not_lt.mpr hp, if_false, h1, h2,
      Status.is_error, Bool.false_eq_true]
  · rw [hb2, hb1, List.append_assoc, header_eq bo p hp]
  · rw [hh] at hc1; omega

theorem send_bytes_ok (bo : ByteOrder) (s s' : AudioStreamBase) (p : List Byte)
    (ho : s._closed = false) (h : s.send_bytes bo p = some (Status.Ok, s')) :
    p.length ≤ 1 <<< 30 ∧ s'.bytes_out = s.bytes_out ++ frame bo p := by
  unfold AudioStreamBase.send_bytes at h
  simp only at h
  split at h
  · simp at h
  · next hle =>
    have hle' : p.length ≤ 1 <<< 30 := Nat.not_lt.mp hle
    refine ⟨hle', ?_⟩
    split at h
    · simp at h
    · next status s1 h1 =>
      cases status with
      | Error t => simp [Status.is_error] at h
      | ConnectionClosed => simp [Status.is_error] at h
      | Ok =>
        simp only [Status.is_error, Bool.false_eq_true, if_false] at h
        obtain ⟨hb1, ho1⟩ := pipe_write_ok s s1 _ ho h1
        split at h
        · simp at h
        · next status2 s2 h2 =>
          cases status2 with
          | Error t => simp [Status.is_error] at h
          | ConnectionClosed => simp [Status.is_error] at h
          | Ok =>
            simp only [Status.is_error, Bool.false_eq_true, if_false, Option.some.injEq,
              Prod.mk.injEq, true_and] at h
            subst h
            obtain ⟨hb2, _⟩ := pipe_write_ok s1 s2 _ ho1 h2
            rw [hb2, hb1, List.append_assoc, header_eq bo p hle']

theorem send_bytes_too_large (bo : ByteOrder) (s : AudioStreamBase) (p : List Byte)
    (hp : p.length > 1 <<< 30) :
    s.send_bytes bo p = some (Status.Error (ErrorText.block_too_large p.length), s) := by
  simp only [AudioStreamBase.send_bytes, hp, if_true]

/-! ## The frame codec (C1 to C5) -/

/-- C1: round trip of the frame codec.  For every payload `p` shorter than
2^30 bytes: if `send_bytes p` returns Ok on an open stream, having written the
bytes `w`, and the pipe of an open peer delivers `w` and then `rest`, in
whatever partition into reads and with whatever timeouts (`evs`), before it
does anything else (`later`), then the peer's `receive_bytes` returns Ok with
payload `p`, having consumed exactly `w`: `rest` is still to be read. -/
theorem send_receive_round_trip (bo : ByteOrder) (s s' r : AudioStreamBase)
    (evs later : List PollIn) (p w rest : List Byte) (hlen : p.length < 2 ^ 30)
    (hso : s._closed = false) (hsend : s.send_bytes bo p = some (Status.Ok, s'))
    (hw : s'.bytes_out = s.bytes_out ++ w)
    (hro : r._closed = false) (hr : r._pipe_in = evs ++ later) (hd : delivers evs = true)
    (hp : pending evs = w ++ rest) :
    ∃ r' evs', r.receive_bytes bo = some (⟨Status.Ok, p⟩, r') ∧
      r'.bytes_in = r.bytes_in ++ w ∧ r'._pipe_in = evs' ++ later ∧ pending evs' = rest := by
  obtain ⟨_, hf⟩ := send_bytes_ok bo s s' p hso hsend
  have hwf : w = frame bo p := by
    rw [hf] at hw
    exact (List.append_cancel_left hw).symm
  subst hwf
  obtain ⟨r', evs', h1, h2, h3, h4, _, _⟩ :=
    receive_bytes_frame bo r evs later p rest hro hr hd (by omega) hp
  exact ⟨r', evs', h1, h2, h3, h4⟩

/-- Witness of C1: `[1, 2, 3]` sent through `sender0`, received by `receiver0`. -/
theorem send_receive_round_trip_witness :
    sender0.send_bytes ByteOrder.little [1, 2, 3] = some (Status.Ok, sender1) ∧
    ∃ r' evs', receiver0.receive_bytes ByteOrder.little = some (⟨Status.Ok, [1, 2, 3]⟩, r') ∧
      r'.bytes_in = receiver0.bytes_in ++ [0x21, 0x4b, 0x4c, 0x42, 3, 0, 0, 0, 1, 2, 3] ∧
      r'._pipe_in = evs' ++ [PollIn.hup] ∧ pending evs' = [9, 9] :=
  ⟨by decide,
   send_receive_round_trip ByteOrder.little sender0 sender1 receiver0
     [PollIn.data [0x21, 0x4b, 0x4c], PollIn.timeout,
      PollIn.data [0x42, 3, 0, 0, 0, 1, 2], PollIn.data [3, 9, 9]] [PollIn.hup] [1, 2, 3]
     [0x21, 0x4b, 0x4c, 0x42, 3, 0, 0, 0, 1, 2, 3] [9, 9] (by decide) (by decide) (by decide)
     (by decide) (by decide) (by decide) (by decide) (by decide)⟩

/-- C2: dispatch of `receive_bytes` on the magic word.  On an open stream
whose pipe delivers the four bytes `m` and then `tail` (in any partition into
reads) before it does anything else: if `m` is CLOSE the call returns
ConnectionClosed with no payload, having consumed `m` only; if `m` is
BLOCK_START and `tail` starts with a length word `len` of value `n` and `n`
more bytes, the call returns Ok with those `n` bytes, having consumed `8 + n`
bytes; for any other `m` the call returns the BadFrame error "Unexpected magic
token" with no payload, having consumed `m` only. -/
theorem receive_bytes_dispatch (bo : ByteOrder) (s : AudioStreamBase)
    (evs later : List PollIn) (m tail : List Byte)
    (ho : s._closed = false) (hs : s._pipe_in = evs ++ later) (hd : delivers evs = true)
    (hm : m.length = 4) (hp : pending evs = m ++ tail) :
    (u32_of_bytes bo m = CLOSE →
      ∃ s' evs', s.receive_bytes bo = some (⟨Status.ConnectionClosed, []⟩, s') ∧
        s'.bytes_in = s.bytes_in ++ m ∧ s'._pipe_in = evs' ++ later ∧ pending evs' = tail) ∧
    (u32_of_bytes bo m = BLOCK_START →
      ∀ len payload rest : List Byte, tail = len ++ payload ++ rest → len.length = 4 →
        payload.length = u32_of_bytes bo len →
        ∃ s' evs', s.receive_bytes bo = some (⟨Status.Ok, payload⟩, s') ∧
          s'.bytes_in = s.bytes_in ++ (m ++ len ++ payload) ∧
          (m ++ len ++ payload).length = 8 + u32_of_bytes bo len ∧
          s'._pipe_in = evs' ++ later ∧ pending evs' = rest) ∧
    (u32_of_bytes bo m ≠ CLOSE → u32_of_bytes bo m ≠ BLOCK_START →
      ∃ s' evs' st, s.receive_bytes bo = some (⟨st, []⟩, s') ∧ st.is_bad_frame = true ∧
        st = Status.Error (ErrorText.unexpected_magic (u32_of_bytes bo m)) ∧
        s'.bytes_in = s.bytes_in ++ m ∧ s'._pipe_in = evs' ++ later ∧ pending evs' = tail) := by
  refine ⟨fun hc => receive_bytes_close bo s evs later m tail ho hs hd hm hp hc, ?_, ?_⟩
  · intro hb len payload rest ht hl hn
    subst ht
    obtain ⟨s', evs', h1, h2, h3, h4, _, _⟩ :=
      receive_bytes_block bo s evs later m len payload rest ho hs hd hm hl hn
        (by rw [hp]; simp) hb
    refine ⟨s', evs', h1, h2, ?_, h3, h4⟩
    simp [hm, hl, hn]
    omega
  · intro hc hb
    obtain ⟨s', evs', h1, h2, h3, h4⟩ :=
      receive_bytes_other bo s evs later m tail ho hs hd hm hp hc hb
    exact ⟨s', evs', _, h1, rfl, rfl, h2, h3, h4⟩

/-- Witness of C2: a CLOSE word, a block of two bytes and an unknown magic
word, each followed by one more byte, on a little-endian host. -/
theorem receive_bytes_dispatch_witness :
    (∃ s', (receiver_of [0x53, 0x4f] [0x4c, 0x43, 7]).receive_bytes ByteOrder.little =
        some (⟨Status.ConnectionClosed, []⟩, s') ∧
      s'.bytes_in = [0x53, 0x4f, 0x4c, 0x43]) ∧
    (∃ s', (receiver_of [0x21, 0x4b, 0x4c, 0x42, 2] [0, 0, 0, 5, 6, 7]).receive_bytes
        ByteOrder.little = some (⟨Status.Ok, [5, 6]⟩, s') ∧
      s'.bytes_in = [0x21, 0x4b, 0x4c, 0x42, 2, 0, 0, 0, 5, 6]) ∧
    (∃ s', (receiver_of [1, 2] [3, 4, 7]).receive_bytes ByteOrder.little =
        some (⟨Status.Error (ErrorText.unexpected_magic 0x04030201), []⟩, s') ∧
      s'.bytes_in = [1, 2, 3, 4]) := by
  refine ⟨?_, ?_, ?_⟩
  · obtain ⟨s', _, h1, h2, _, _⟩ :=
      (receive_bytes_dispatch ByteOrder.little (receiver_of [0x53, 0x4f] [0x4c, 0x43, 7])
        [PollIn.data [0x53, 0x4f], PollIn.timeout, PollIn.data [0x4c, 0x43, 7]]
        [PollIn.read_fail] [0x53, 0x4f, 0x4c, 0x43] [7]
        (by decide) (by decide) (by decide) (by decide) (by decide)).1 (by decide)
    exact ⟨s', h1, h2⟩
  · obtain ⟨s', _, h1, h2, _, _, _⟩ :=
      (receive_bytes_dispatch ByteOrder.little
        (receiver_of [0x21, 0x4b, 0x4c, 0x42, 2] [0, 0, 0, 5, 6, 7])
        [PollIn.data [0x21, 0x4b, 0x4c, 0x42, 2], PollIn.timeout,
         PollIn.data [0, 0, 0, 5, 6, 7]] [PollIn.read_fail]
        [0x21, 0x4b, 0x4c, 0x42] [2, 0, 0, 0, 5, 6, 7] (by decide) (by decide) (by decide)
        (by decide) (by decide)).2.1 (by decide) [2, 0, 0, 0] [5, 6] [7] (by decide)
        (by decide) (by decide)
    exact ⟨s', h1, h2⟩
  · obtain ⟨s', _, st, h1, _, h2, h3, _, _⟩ :=
      (receive_bytes_dispatch ByteOrder.little (receiver_of [1, 2] [3, 4, 7])
        [PollIn.data [1, 2], PollIn.timeout, PollIn.data [3, 4, 7]] [PollIn.read_fail]
        [1, 2, 3, 4] [7] (by decide) (by decide) (by decide) (by decide) (by decide)).2.2
        (by decide) (by decide)
    subst h2
    exact ⟨s', h1, h3⟩

/-- C3: `send_bytes` on an open stream whose pipe accepts the writes (script
`evs`, with room for the frame when the payload is within the limit) before it
does anything else.  A payload of more than 2^30 bytes gets the error "Block
too large" and nothing is written; any other payload gets Ok and what is
written is exactly the BLOCK_START word 0x424C4B21, the payload length as a
32-bit word, and the payload. -/
theorem send_bytes_frame_or_reject (bo : ByteOrder) (s : AudioStreamBase)
    (evs later : List PollOut) (p : List Byte)
    (ho : s._closed = false) (hs : s._pipe_out = evs ++ later) (ha : accepts evs = true)
    (hc : p.length ≤ 2 ^ 30 → 8 + p.length ≤ capacity evs) :
    ∃ s', s.send_bytes bo p =
        some (if p.length > 2 ^ 30 then Status.Error (ErrorText.block_too_large p.length)
              else Status.Ok, s') ∧
      s'.bytes_out = s.bytes_out ++
        (if p.length > 2 ^ 30 then []
         else u32_bytes bo 0x424C4B21 ++ u32_bytes bo p.length ++ p) := by
  have h30 : (1 <<< 30 : Nat) = 2 ^ 30 := by decide
  by_cases hp : p.length > 2 ^ 30
  · refine ⟨s, ?_, ?_⟩
    · rw [if_pos hp]
      exact send_bytes_too_large bo s p (by rw [h30]; exact hp)
    · rw [if_pos hp]; simp
  · obtain ⟨s', _, h1, h2, _⟩ :=
      send_bytes_accepts bo s evs later p ho hs ha (hc (Nat.not_lt.mp hp))
        (by rw [h30]; exact Nat.not_lt.mp hp)
    refine ⟨s', ?_, ?_⟩
    · rw [if_neg hp]; exact h1
    · rw [if_neg hp]; exact h2

/-- Witness of C3: `[1, 2, 3]` through `sender0` is framed, and 2^30 + 1 zero
bytes through `sender0` are refused. -/
theorem send_bytes_frame_or_reject_witness :
    (∃ s', sender0.send_bytes ByteOrder.little [1, 2, 3] = some (Status.Ok, s') ∧
      s'.bytes_out = [0x21, 0x4b, 0x4c, 0x42, 3, 0, 0, 0, 1, 2, 3]) ∧
    (∃ s', sender0.send_bytes ByteOrder.little (List.replicate (2 ^ 30 + 1) 0) =
        some (Status.Error (ErrorText.block_too_large (2 ^ 30 + 1)), s') ∧
      s'.bytes_out = []) := by
  constructor
  · obtain ⟨s', h1, h2⟩ :=
      send_bytes_frame_or_reject ByteOrder.little sender0
        [PollOut.room 3, PollOut.timeout, PollOut.room 64] [PollOut.hup] [1, 2, 3]
        (by decide) (by decide) (by decide) (fun _ => by decide)
    exact ⟨s', h1, h2⟩
  · have hl : (List.replicate (2 ^ 30 + 1) (0 : Byte)).length = 2 ^ 30 + 1 :=
      List.length_replicate _ _
    obtain ⟨s', h1, h2⟩ :=
      send_bytes_frame_or_reject ByteOrder.little sender0
        [PollOut.room 3, PollOut.timeout, PollOut.room 64] [PollOut.hup]
        (List.replicate (2 ^ 30 + 1) 0)
        (by decide) (by decide) (by decide) (fun h => by rw [hl] at h; omega)
    rw [hl, if_pos (by decide)] at h1
    rw [hl, if_pos (by decide)] at h2
    exact ⟨s', h1, h2⟩

/-- Counterexample to C4: a payload of exactly 2^30 bytes is not rejected.
`send_bytes` returns Ok and writes the frame, 2^30 + 8 bytes. -/
theorem send_bytes_accepts_two_pow_30 :
    (List.replicate (2 ^ 30) (0 : Byte)).length = 2 ^ 30 ∧
    ∃ s', big_sender.send_bytes ByteOrder.little (List.replicate (2 ^ 30) 0) =
        some (Status.Ok, s') ∧
      Status.Ok.is_bad_frame = false ∧ s'.bytes_out.length = 2 ^ 30 + 8 := by
  refine ⟨List.length_replicate _ _, ?_⟩
  obtain ⟨s', _, h1, h2, _⟩ :=
    send_bytes_accepts ByteOrder.little big_sender [PollOut.room 1073741832] []
      (List.replicate (2 ^ 30) 0) rfl rfl rfl
      (by rw [List.length_replicate]; decide) (by rw [List.length_replicate]; decide)
  refine ⟨s', h1, rfl, ?_⟩
  rw [h2, List.length_append, frame_length, List.length_replicate]
  decide

/-- C4, amended: the size check of `send_bytes` is strict.  On an open stream
whose pipe accepts the writes, a payload of exactly 2^30 bytes gets Ok and its
complete frame is written; a longer payload gets the error "Block too large"
and nothing is written. -/
theorem send_bytes_size_limit_inclusive (bo : ByteOrder) (s : AudioStreamBase)
    (evs later : List PollOut) (p : List Byte)
    (ho : s._closed = false) (hs : s._pipe_out = evs ++ later) (ha : accepts evs = true)
    (hc : p.length = 2 ^ 30 → 8 + p.length ≤ capacity evs) (hp : 2 ^ 30 ≤ p.length) :
    ∃ s', s.send_bytes bo p =
        some (if p.length = 2 ^ 30 then Status.Ok
              else Status.Error (ErrorText.block_too_large p.length), s') ∧
      s'.bytes_out = s.bytes_out ++ (if p.length = 2 ^ 30 then frame bo p else []) := by
  have h30 : (1 <<< 30 : Nat) = 2 ^ 30 := by decide
  by_cases he : p.length = 2 ^ 30
  · obtain ⟨s', _, h1, h2, _⟩ :=
      send_bytes_accepts bo s evs later p ho hs ha (hc he) (by rw [h30]; exact Nat.le_of_eq he)
    refine ⟨s', ?_, ?_⟩
    · rw [if_pos he]; exact h1
    · rw [if_pos he]; exact h2
  · refine ⟨s, ?_, ?_⟩
    · rw [if_neg he]
      exact send_bytes_too_large bo s p (by rw [h30]; omega)
    · rw [if_neg he]; simp

/-- Witness of the amended C4: 2^30 zero bytes through `big_sender`. -/
theorem send_bytes_size_limit_inclusive_witness :
    ∃ s', big_sender.send_bytes ByteOrder.big (List.replicate (2 ^ 30) 0) =
        some (Status.Ok, s') ∧
      s'.bytes_out = frame ByteOrder.big (List.replicate (2 ^ 30) 0) := by
  obtain ⟨s', h1, h2⟩ :=
    send_bytes_size_limit_inclusive ByteOrder.big big_sender [PollOut.room 1073741832] []
      (List.replicate (2 ^ 30) 0) rfl rfl rfl
      (fun _ => by rw [List.length_replicate]; decide) (by rw [List.length_replicate])
  rw [if_pos (List.length_replicate _ _)] at h1 h2
  exact ⟨s', h1, h2⟩

/-- Counterexample to C5: a frame with magic BLOCK_START whose length word is
2^30 + 1 is not rejected.  `receive_bytes` returns Ok with the 2^30 + 1
payload bytes. -/
theorem receive_bytes_accepts_oversize :
    u32_of_bytes ByteOrder.little
      (((frame ByteOrder.little (List.replicate (2 ^ 30 + 1) 0)).drop 4).take 4) = 2 ^ 30 + 1 ∧
    ∃ s', (receiver_of_frame ByteOrder.little (List.replicate (2 ^ 30 + 1) 0)).receive_bytes
        ByteOrder.little = some (⟨Status.Ok, List.replicate (2 ^ 30 + 1) 0⟩, s') ∧
      Status.Ok.is_bad_frame = false := by
  constructor
  · simp only [frame, List.length_replicate]
    decide
  · obtain ⟨s', _, h1, _⟩ :=
      receive_bytes_frame ByteOrder.little
        (receiver_of_frame ByteOrder.little (List.replicate (2 ^ 30 + 1) 0))
        [PollIn.data (frame ByteOrder.little (List.replicate (2 ^ 30 + 1) 0))] []
        (List.replicate (2 ^ 30 + 1) 0) [] rfl rfl rfl
        (by rw [List.length_replicate]; decide)
        (by simp only [pending, List.append_nil])
    exact ⟨s', h1, rfl⟩

/-- C5, amended: `receive_bytes` has no size check.  On an open stream whose
pipe delivers a frame with magic BLOCK_START and a length word greater than
2^30, followed by the payload, the call returns Ok with that payload, having
consumed the whole frame. -/
theorem receive_bytes_no_size_limit (bo : ByteOrder) (s : AudioStreamBase)
    (evs later : List PollIn) (payload rest : List Byte)
    (ho : s._closed = false) (hs : s._pipe_in = evs ++ later) (hd : delivers evs = true)
    (hbig : 2 ^ 30 < payload.length) (h32 : payload.length < 2 ^ 32)
    (hp : pending evs =
      u32_bytes bo BLOCK_START ++ u32_bytes bo payload.length ++ payload ++ rest) :
    u32_of_bytes bo (u32_bytes bo payload.length) > 2 ^ 30 ∧
    ∃ s' evs', s.receive_bytes bo = some (⟨Status.Ok, payload⟩, s') ∧
      s'.bytes_in = s.bytes_in ++
        (u32_bytes bo BLOCK_START ++ u32_bytes bo payload.length ++ payload) ∧
      s'._pipe_in = evs' ++ later ∧ pending evs' = rest := by
  constructor
  · rw [u32_of_bytes_u32_bytes bo _ h32]; exact hbig
  · obtain ⟨s', evs', h1, h2, h3, h4, _, _⟩ :=
      receive_bytes_frame bo s evs later payload rest ho hs hd h32 hp
    exact ⟨s', evs', h1, h2, h3, h4⟩

/-- Witness of the amended C5: the frame of 2^30 + 1 zero bytes. -/
theorem receive_bytes_no_size_limit_witness :
    2 ^ 30 < (List.replicate (2 ^ 30 + 1) (0 : Byte)).length ∧
    ∃ s', (receiver_of_frame ByteOrder.big (List.replicate (2 ^ 30 + 1) 0)).receive_bytes
        ByteOrder.big = some (⟨Status.Ok, List.replicate (2 ^ 30 + 1) 0⟩, s') := by
  have hl : 2 ^ 30 < (List.replicate (2 ^ 30 + 1) (0 : Byte)).length := by
    rw [List.length_replicate]; decide
  refine ⟨hl, ?_⟩
  obtain ⟨_, s', _, h1, _⟩ :=
    receive_bytes_no_size_limit ByteOrder.big
      (receiver_of_frame ByteOrder.big (List.replicate (2 ^ 30 + 1) 0))
      [PollIn.data (frame ByteOrder.big (List.replicate (2 ^ 30 + 1) 0))] []
      (List.replicate (2 ^ 30 + 1) 0) [] rfl rfl rfl hl
      (by rw [List.length_replicate]; decide)
      (by simp only [pending, frame, List.append_nil])
  exact ⟨s', h1⟩

/-! ## ProcessorCSoundBase (C6 to C10) -/

theorem first_unconnected_none (bufs : List BufferPtr) :
    ∀ k : Nat, (∀ b ∈ bufs, b ≠ none) → first_unconnected bufs k = none := by
  induction bufs with
  | nil => intro k _; rfl
  | cons b bufs ih =>
    intro k h
    cases b with
    | none => exact absurd rfl (h none (List.mem_cons_self _ _))
    | some a =>
      simp only [first_unconnected]
      exact ih (k + 1) fun b hb => h b (List.mem_cons_of_mem _ hb)

theorem setup_internal_buffers_length (st : ProcessorCSoundBase) :
    (st.setup_internal Status.Ok).2._buffers.length = st.ports.length := by
  simp only [ProcessorCSoundBase.setup_internal, Status.is_error, Bool.false_eq_true, if_false,
    resize_buffers, List.length_append, List.length_take, List.length_replicate]
  omega

theorem clear_all_outputs_zero (st : ProcessorCSoundBase) (i a : Nat) (p : PortDescription)
    (hp : st.ports[i]? = some p) (hd : p.direction = PortDirection.Output)
    (hb : st._buffers[i]? = some (some a)) :
    st.clear_all_outputs.memory a = List.replicate (st.memory a).length 0 := by
  have hz : (List.zip st.ports st._buffers)[i]? = some (p, some a) :=
    List.getElem?_zip_eq_some.mpr ⟨hp, hb⟩
  have hmem : (p, some a) ∈ List.zip st.ports st._buffers := List.mem_iff_getElem?.mpr ⟨i, hz⟩
  have ho : is_output_buffer st.ports st._buffers a = true := by
    unfold is_output_buffer
    rw [List.any_eq_true]
    exact ⟨(p, some a), hmem, by simp [hd]⟩
  simp only [ProcessorCSoundBase.clear_all_outputs, ho, if_true]

/-- C6: rotation in `process_block_internal`.  With every port connected and
`old` empty the call returns; when `next` is empty the three slots are as
before; when `next` holds `x` it ends with `next` empty, `current = x` and
`old` the previous `current`; in both cases the block is processed by the
object that is `current` afterwards (status and buffers are those of its
`process_block`), and when there is none the outputs are cleared with Ok. -/
theorem process_block_rotation (cs : CSoundUtil) (st : ProcessorCSoundBase)
    (hconn : ∀ b ∈ st._buffers, b ≠ none) (hold : st._old_instance = none) :
    ∃ status st', st.process_block_internal cs = Outcome.returned (status, st') ∧
      (st._next_instance = none →
        st'._next_instance = st._next_instance ∧ st'._current_instance = st._current_instance ∧
        st'._old_instance = st._old_instance) ∧
      (∀ x, st._next_instance = some x →
        st'._next_instance = none ∧ st'._current_instance = some x ∧
        st'._old_instance = st._current_instance) ∧
      (match st'._current_instance with
       | some i => (status, st'.memory) = cs.process_block i st._buffers st.memory
       | none => status = Status.Ok ∧ st'.memory = st.clear_all_outputs.memory) := by
  have hf := first_unconnected_none st._buffers 0 hconn
  unfold ProcessorCSoundBase.process_block_internal
  rw [hf]
  cases hn : st._next_instance with
  | none =>
    cases hcur : st._current_instance with
    | none =>
      refine ⟨_, _, rfl, ?_, ?_, ?_⟩
      · intro _; exact ⟨rfl, hcur.symm ▸ rfl, rfl⟩
      · intro x hx; cases hx
      · simp [ProcessorCSoundBase.clear_all_outputs, hn]
    | some c =>
      refine ⟨_, _, rfl, ?_, ?_, ?_⟩
      · intro _; exact ⟨rfl, hcur.symm ▸ rfl, rfl⟩
      · intro x hx; cases hx
      · rfl
  | some x =>
    simp only [hold, ne_eq, not_true_eq_false, if_false]
    refine ⟨_, _, rfl, ?_, ?_, ?_⟩
    · intro h; cases h
    · intro y hy; cases hy; exact ⟨rfl, rfl, rfl⟩
    · rfl

/-- Witness of C6: `processor_swapping` installs object 2, retires object 1
and lets object 2 process the block. -/
theorem process_block_rotation_witness :
    ∃ st', processor_swapping.process_block_internal csound_ok =
        Outcome.returned (Status.Ok, st') ∧
      st'._next_instance = none ∧ st'._current_instance = some 2 ∧
      st'._old_instance = some 1 ∧ st'.memory 0 = [2] := by
  obtain ⟨status, st', h, _, hx, hm⟩ :=
    process_block_rotation csound_ok processor_swapping (by decide) rfl
  obtain ⟨h1, h2, h3⟩ := hx 2 rfl
  rw [h2] at hm
  simp only [csound_ok, Prod.mk.injEq] at hm
  obtain ⟨hs, hmem⟩ := hm
  subst hs
  exact ⟨st', h, h1, h2, h3, by rw [hmem]; rfl⟩

/-- What `set_code` does when `setup` fails. -/
theorem set_code_of_setup_error (cs : CSoundUtil) (st : ProcessorCSoundBase)
    (orchestra score : List Byte) (he : (cs.setup orchestra score st.ports).is_error = true) :
    st.set_code cs orchestra score =
      Outcome.returned (cs.setup orchestra score st.ports,
        { st with _next_instance := none, _old_instance := none, allocated := st.allocated + 1,
                  deleted := st.deleted ++
                    (st._next_instance.toList ++ st._old_instance.toList ++ [st.allocated]) }) := by
  cases hn : st._next_instance <;> cases ho : st._old_instance <;>
    simp [ProcessorCSoundBase.set_code, ProcessorCSoundBase.delete_if_set, hn, ho, he]

/-- What `set_code` does when `setup` succeeds. -/
theorem set_code_of_setup_ok (cs : CSoundUtil) (st : ProcessorCSoundBase)
    (orchestra score : List Byte) (he : (cs.setup orchestra score st.ports).is_error = false) :
    st.set_code cs orchestra score =
      Outcome.returned (Status.Ok,
        { st with _next_instance := some st.allocated, _old_instance := none,
                  allocated := st.allocated + 1,
                  deleted := st.deleted ++
                    (st._next_instance.toList ++ st._old_instance.toList) }) := by
  cases hn : st._next_instance <;> cases ho : st._old_instance <;>
    simp [ProcessorCSoundBase.set_code, ProcessorCSoundBase.delete_if_set, hn, ho, he]

/-- Counterexample to C7: on a fresh processor, whose `next` and `old` are
empty, a `set_code` whose `setup` fails destroys an object all the same, the
one it has just built (object 0). -/
theorem set_code_failed_setup_destroys_built :
    processor_fresh._next_instance = none ∧ processor_fresh._old_instance = none ∧
    ∃ st', processor_fresh.set_code csound_bad [] [] =
        Outcome.returned (Status.Error (ErrorText.external 1), st') ∧
      st'.deleted = [0] :=
  ⟨rfl, rfl, _, rfl, rfl⟩

/-- C7, amended: `set_code` on any slot state.  The call returns; `current`
is as before and `old` is empty.  When `setup` of the object built by the call
succeeds, the result is Ok, `next` holds that object, and the objects
destroyed are those that were in `next` and `old` on entry.  When it fails,
the result is that error, `next` is empty, and the objects destroyed are those
that were in `next` and `old` on entry and the object just built.  When the
slots own what they point to, no object is destroyed twice. -/
theorem set_code_slots (cs : CSoundUtil) (st : ProcessorCSoundBase)
    (orchestra score : List Byte) :
    ∃ status st', st.set_code cs orchestra score = Outcome.returned (status, st') ∧
      st'._current_instance = st._current_instance ∧ st'._old_instance = none ∧
      ((cs.setup orchestra score st.ports).is_error = false →
        status = Status.Ok ∧ st'._next_instance = some st.allocated ∧
        st'.deleted = st.deleted ++ (st._next_instance.toList ++ st._old_instance.toList)) ∧
      ((cs.setup orchestra score st.ports).is_error = true →
        status = cs.setup orchestra score st.ports ∧ st'._next_instance = none ∧
        st'.deleted =
          st.deleted ++ (st._next_instance.toList ++ st._old_instance.toList ++ [st.allocated])) ∧
      (st.slots_valid →
        (st._next_instance.toList ++ st._old_instance.toList ++ [st.allocated]).Nodup) := by
  have hnodup : st.slots_valid →
      (st._next_instance.toList ++ st._old_instance.toList ++ [st.allocated]).Nodup := by
    intro hv
    obtain ⟨hn, hb⟩ := hv
    unfold ProcessorCSoundBase.held at hn hb
    cases h1 : st._next_instance <;> cases h2 : st._current_instance <;>
      cases h3 : st._old_instance <;> simp [h1, h2, h3] at hn hb ⊢ <;> omega
  by_cases he : (cs.setup orchestra score st.ports).is_error = true
  · refine ⟨_, _, set_code_of_setup_error cs st orchestra score he, rfl, rfl, ?_, ?_, hnodup⟩
    · intro h; rw [he] at h; cases h
    · intro _; exact ⟨rfl, rfl, rfl⟩
  · have he' : (cs.setup orchestra score st.ports).is_error = false := by
      simpa using he
    refine ⟨_, _, set_code_of_setup_ok cs st orchestra score he', rfl, rfl, ?_, ?_, hnodup⟩
    · intro _; exact ⟨rfl, rfl, rfl⟩
    · intro h; exact absurd h he

/-- Witness of the amended C7: on `processor_full` a successful `set_code`
destroys objects 0 and 2 and publishes object 3. -/
theorem set_code_slots_witness :
    processor_full.slots_valid ∧ [0, 2, 3].Nodup ∧
    ∃ st', processor_full.set_code csound_ok [] [] = Outcome.returned (Status.Ok, st') ∧
      st'._next_instance = some 3 ∧ st'._current_instance = some 1 ∧
      st'._old_instance = none ∧ st'.deleted = [0, 2] := by
  have hv : processor_full.slots_valid := by
    unfold ProcessorCSoundBase.slots_valid ProcessorCSoundBase.held
    decide
  obtain ⟨status, st', h, hc, ho, hok, _, hnd⟩ := set_code_slots csound_ok processor_full [] []
  obtain ⟨hs, hn, hd⟩ := hok rfl
  subst hs
  exact ⟨hv, hnd hv, st', h, hn, hc, ho, hd⟩

/-- C8 fails on the code: under `racing_schedule` the third `set_code` finds
`old` still empty and publishes object 2 while object 0 is on its way to
`old`; at the next rotation the exchange on `old` returns object 0, which the
code asserts to be null.  Object 0 is then in no slot, in no local variable
and not deleted. -/
theorem hand_off_race_loses_object :
    (HandOff.init.run racing_schedule).dropped = [0] ∧
    (HandOff.init.run racing_schedule).leaked = [0] ∧
    (HandOff.init.run racing_schedule).deleted = [] ∧
    (HandOff.init.run racing_schedule).next = none ∧
    (HandOff.init.run racing_schedule).current = some 2 ∧
    (HandOff.init.run racing_schedule).old = some 1 := by
  decide

/-- C9: no instance yet.  With every port connected, as a processor is when it
is run, and `next` and `current` both empty on entry, so that `current` is
null after the rotation step, `process_block_internal` returns Ok and
zero-fills the buffer of every output port: the buffer keeps its size and all
its bytes are zero. -/
theorem process_block_no_instance_clears (cs : CSoundUtil) (st : ProcessorCSoundBase)
    (hconn : ∀ b ∈ st._buffers, b ≠ none) (hn : st._next_instance = none)
    (hc : st._current_instance = none) :
    ∃ st', st.process_block_internal cs = Outcome.returned (Status.Ok, st') ∧
      st'._current_instance = none ∧
      ∀ (i a : Nat) (p : PortDescription), st.ports[i]? = some p →
        p.direction = PortDirection.Output → st._buffers[i]? = some (some a) →
        st'.memory a = List.replicate (st.memory a).length 0 := by
  have hf := first_unconnected_none st._buffers 0 hconn
  refine ⟨{ st with _next_instance := none }.clear_all_outputs, ?_, hc, ?_⟩
  · unfold ProcessorCSoundBase.process_block_internal
    rw [hf]
    simp only [hn, hc]
  · intro i a p hp hd hb
    exact clear_all_outputs_zero { st with _next_instance := none } i a p hp hd hb

/-- Witness of C9: `processor_idle` gets Ok and its output buffer becomes two
zero bytes. -/
theorem process_block_no_instance_clears_witness :
    ∃ st', processor_idle.process_block_internal csound_ok =
        Outcome.returned (Status.Ok, st') ∧ st'.memory 1 = [0, 0] := by
  obtain ⟨st', h, _, hz⟩ :=
    process_block_no_instance_clears csound_ok processor_idle (by decide) rfl rfl
  exact ⟨st', h, hz 1 1 ⟨[], 0, PortDirection.Output⟩ rfl rfl rfl⟩

/-- C10: `connect_port_internal` after `setup_internal`, when `_buffers` has
one entry per port.  The call returns an error exactly when `port_idx` is at
least the number of ports, and then the processor is unchanged; otherwise it
returns Ok, port `port_idx` is bound to `buf` and every other port keeps its
binding. -/
theorem connect_port_internal_spec (st : ProcessorCSoundBase) (port_idx : Nat) (buf : BufferPtr)
    (hsize : st._buffers.length = st.ports.length) :
    (((st.connect_port_internal port_idx buf).1.is_error = true) ↔
      st.ports.length ≤ port_idx) ∧
    (st.ports.length ≤ port_idx → (st.connect_port_internal port_idx buf).2 = st) ∧
    (port_idx < st.ports.length →
      (st.connect_port_internal port_idx buf).1 = Status.Ok ∧
      (st.connect_port_internal port_idx buf).2._buffers[port_idx]? = some buf ∧
      (st.connect_port_internal port_idx buf).2._buffers.length = st.ports.length ∧
      ∀ j, j ≠ port_idx →
        (st.connect_port_internal port_idx buf).2._buffers[j]? = st._buffers[j]?) := by
  unfold ProcessorCSoundBase.connect_port_internal
  rw [hsize]
  by_cases h : st.ports.length ≤ port_idx
  · simp only [ge_iff_le, h, if_true, Status.is_error, true_and, implies_true, and_true]
    intro h'; omega
  · simp only [ge_iff_le, h, if_false, Status.is_error, Bool.false_eq_true, false_iff,
      not_false_eq_true, false_implies, true_and, List.length_set, hsize]
    intro _
    refine ⟨?_, ?_⟩
    · rw [List.getElem?_set_self (by omega)]
    · intro j hj
      rw [List.getElem?_set_ne (Ne.symm hj)]

/-- Witness of C10: after `setup_internal` on a processor with two ports,
index 1 is accepted and index 2 is refused. -/
theorem connect_port_internal_spec_witness :
    (((ProcessorCSoundBase.setup_internal Status.Ok processor_idle).2.connect_port_internal
        1 (some 9)).1 = Status.Ok) ∧
    (((ProcessorCSoundBase.setup_internal Status.Ok processor_idle).2.connect_port_internal
        1 (some 9)).2._buffers = [some 0, some 9]) ∧
    (((ProcessorCSoundBase.setup_internal Status.Ok processor_idle).2.connect_port_internal
        2 (some 9)).1.is_error = true) :=
  ⟨((connect_port_internal_spec (ProcessorCSoundBase.setup_internal Status.Ok processor_idle).2
      1 (some 9) (by decide)).2.2 (by decide)).1,
   by decide,
   (connect_port_internal_spec (ProcessorCSoundBase.setup_internal Status.Ok processor_idle).2
      2 (some 9) (by decide)).1.mpr (by decide)⟩

/-! ## Closed streams and sequential calls (C15, C16) -/

theorem receive_bytes_of_closed (bo : ByteOrder) (s : AudioStreamBase) (hc : s._closed = true) :
    s.receive_bytes bo = some (⟨Status.ConnectionClosed, []⟩, s) := by
  simp [AudioStreamBase.receive_bytes, AudioStreamBase.pipe_read, hc, Status.is_error,
    StatusOr.of_status]
  rfl

theorem send_bytes_of_closed (bo : ByteOrder) (s : AudioStreamBase) (p : List Byte)
    (hc : s._closed = true) (hp : p.length ≤ 2 ^ 30) :
    s.send_bytes bo p = some (Status.ConnectionClosed, s) := by
  have h30 : (1 <<< 30 : Nat) = 2 ^ 30 := by decide
  have hn : ¬ p.length > 1 <<< 30 := by rw [h30]; omega
  simp only [AudioStreamBase.send_bytes, hn, if_false, AudioStreamBase.pipe_write, hc, if_true,
    Status.is_error]

theorem calls_of_closed (bo : ByteOrder) (s : AudioStreamBase) (hc : s._closed = true) :
    ∀ calls : List StreamCall,
      (∀ p, StreamCall.send_bytes p ∈ calls → p.length ≤ 2 ^ 30) →
      s.calls bo calls = some (List.replicate calls.length Status.ConnectionClosed, s) := by
  intro calls
  induction calls with
  | nil => intro _; rfl
  | cons c cs ih =>
    intro h
    have hrest := ih fun p hp => h p (List.mem_cons_of_mem _ hp)
    cases c with
    | receive_bytes =>
      simp only [AudioStreamBase.calls, AudioStreamBase.call, receive_bytes_of_closed bo s hc,
        Option.map_some', hrest, List.length_cons, List.replicate_succ]
    | send_bytes data =>
      have hd := h data (List.mem_cons_self _ _)
      simp only [AudioStreamBase.calls, AudioStreamBase.call, send_bytes_of_closed bo s data hc hd,
        hrest, List.length_cons, List.replicate_succ]

/-- C15: after `close()`.  Every later `receive_bytes` returns
ConnectionClosed with no payload and every later `send_bytes` of at most 2^30
bytes returns ConnectionClosed, for any run of such calls; the stream is left
as `close()` left it, so that nothing is read from the input pipe and nothing
is written to the output pipe. -/
theorem closed_stream_stays_closed (bo : ByteOrder) (s : AudioStreamBase)
    (calls : List StreamCall)
    (hsize : ∀ p, StreamCall.send_bytes p ∈ calls → p.length ≤ 2 ^ 30) :
    s.close.calls bo calls =
        some (List.replicate calls.length Status.ConnectionClosed, s.close) ∧
      s.close.receive_bytes bo = some (⟨Status.ConnectionClosed, []⟩, s.close) ∧
      s.close._pipe_in = s._pipe_in ∧ s.close.bytes_in = s.bytes_in ∧
      s.close._pipe_out = s._pipe_out ∧ s.close.bytes_out = s.bytes_out :=
  ⟨calls_of_closed bo s.close rfl calls hsize, receive_bytes_of_closed bo s.close rfl,
    rfl, rfl, rfl, rfl⟩

/-- Witness of C15: `receiver0` and `sender0` after `close()`, with bytes
waiting in the pipe and room in the pipe. -/
theorem closed_stream_stays_closed_witness :
    receiver0.close.calls ByteOrder.little
        [StreamCall.receive_bytes, StreamCall.send_bytes [1, 2, 3], StreamCall.receive_bytes] =
      some ([Status.ConnectionClosed, Status.ConnectionClosed, Status.ConnectionClosed],
        receiver0.close) ∧
    sender0.close.calls ByteOrder.little [StreamCall.send_bytes [1, 2, 3]] =
      some ([Status.ConnectionClosed], sender0.close) ∧
    sender0.close.bytes_out = [] :=
  ⟨(closed_stream_stays_closed ByteOrder.little receiver0
      [StreamCall.receive_bytes, StreamCall.send_bytes [1, 2, 3], StreamCall.receive_bytes]
      (fun p hp => by simp at hp; subst hp; decide)).1,
   (closed_stream_stays_closed ByteOrder.little sender0 [StreamCall.send_bytes [1, 2, 3]]
      (fun p hp => by simp at hp; subst hp; decide)).1,
   rfl⟩

theorem set_code_keeps_invariant (cs : CSoundUtil) (st : ProcessorCSoundBase)
    (orchestra score : List Byte) :
    ∃ st', st.call cs (ProcessorCall.set_code orchestra score) = Outcome.returned st' ∧
      st'.next_implies_old_empty := by
  by_cases he : (cs.setup orchestra score st.ports).is_error = true
  · simp only [ProcessorCSoundBase.call, set_code_of_setup_error cs st orchestra score he]
    exact ⟨_, rfl, fun _ => rfl⟩
  · have he' : (cs.setup orchestra score st.ports).is_error = false := by simpa using he
    simp only [ProcessorCSoundBase.call, set_code_of_setup_ok cs st orchestra score he']
    exact ⟨_, rfl, fun _ => rfl⟩

theorem process_block_keeps_invariant (cs : CSoundUtil) (st : ProcessorCSoundBase)
    (hinv : st.next_implies_old_empty) :
    ∃ st', st.call cs ProcessorCall.process_block_internal = Outcome.returned st' ∧
      st'.next_implies_old_empty := by
  unfold ProcessorCSoundBase.call ProcessorCSoundBase.process_block_internal
  cases hf : first_unconnected st._buffers 0 with
  | some port_idx => exact ⟨st, rfl, hinv⟩
  | none =>
    cases hn : st._next_instance with
    | none =>
      cases hcur : st._current_instance with
      | none =>
        refine ⟨_, rfl, ?_⟩
        intro h; exact absurd rfl h
      | some c =>
        refine ⟨_, rfl, ?_⟩
        intro h; exact absurd rfl h
    | some x =>
      have hold : st._old_instance = none := hinv (by rw [hn]; simp)
      simp only [hold, ne_eq, not_true_eq_false, if_false]
      refine ⟨_, rfl, ?_⟩
      intro h; exact absurd rfl h

theorem cleanup_keeps_invariant (cs : CSoundUtil) (st : ProcessorCSoundBase) :
    ∃ st', st.call cs ProcessorCall.cleanup_internal = Outcome.returned st' ∧
      st'.next_implies_old_empty := by
  refine ⟨_, rfl, ?_⟩
  intro _
  cases h1 : st._next_instance <;> cases h2 : st._current_instance <;>
    cases h3 : st._old_instance <;>
    simp [ProcessorCSoundBase.cleanup_internal, ProcessorCSoundBase.delete_if_set, h1, h2, h3]

theorem calls_keep_invariant (cs : CSoundUtil) (calls : List ProcessorCall) :
    ∀ st : ProcessorCSoundBase, st.next_implies_old_empty →
      ∃ states, st.calls cs calls = Outcome.returned states ∧ states.length = calls.length ∧
        ∀ st' ∈ states, st'.next_implies_old_empty := by
  induction calls with
  | nil => intro st _; exact ⟨[], rfl, rfl, by simp⟩
  | cons c rest ih =>
    intro st hinv
    have hstep : ∃ st', st.call cs c = Outcome.returned st' ∧ st'.next_implies_old_empty := by
      cases c with
      | set_code orchestra score => exact set_code_keeps_invariant cs st orchestra score
      | process_block_internal => exact process_block_keeps_invariant cs st hinv
      | cleanup_internal => exact cleanup_keeps_invariant cs st
    obtain ⟨st1, h1, hinv1⟩ := hstep
    obtain ⟨states, h2, hlen, hall⟩ := ih st1 hinv1
    refine ⟨st1 :: states, ?_, by simp [hlen], ?_⟩
    · simp only [ProcessorCSoundBase.calls, h1, h2]
    · intro st' hmem
      cases hmem with
      | head => exact hinv1
      | tail _ h => exact hall st' h

/-- C16: sequential calls keep the publisher invariant.  From a freshly
constructed processor, whose three slots are empty (and from any other state
that has `old` empty whenever `next` is not), for every finite run of
`set_code`, `process_block_internal` and `cleanup_internal` calls, each
returning before the next begins, no assertion fails (the run returns a state
for every call) and the state after every call has `old` empty whenever `next`
is not. -/
theorem sequential_calls_keep_invariant (cs : CSoundUtil) (st : ProcessorCSoundBase)
    (calls : List ProcessorCall)
    (hinv : st._next_instance ≠ none → st._old_instance = none) :
    ∃ states, st.calls cs calls = Outcome.returned states ∧ states.length = calls.length ∧
      ∀ st' ∈ states, st'._next_instance ≠ none → st'._old_instance = none :=
  calls_keep_invariant cs calls st hinv

/-- Witness of C16: on a fresh processor, two code changes with a block
between and after them, then another code change and a cleanup. -/
theorem sequential_calls_keep_invariant_witness :
    (processor_fresh._next_instance = none ∧ processor_fresh._current_instance = none ∧
      processor_fresh._old_instance = none) ∧
    ∃ states, processor_fresh.calls csound_ok
        [ProcessorCall.set_code [] [], ProcessorCall.process_block_internal,
         ProcessorCall.set_code [] [], ProcessorCall.process_block_internal,
         ProcessorCall.set_code [] [], ProcessorCall.cleanup_internal] =
        Outcome.returned states ∧ states.length = 6 ∧
      ∀ st' ∈ states, st'._next_instance ≠ none → st'._old_instance = none :=
  ⟨⟨rfl, rfl, rfl⟩,
   sequential_calls_keep_invariant csound_ok processor_fresh
    [ProcessorCall.set_code [] [], ProcessorCall.process_block_internal,
     ProcessorCall.set_code [] [], ProcessorCall.process_block_internal,
     ProcessorCall.set_code [] [], ProcessorCall.cleanup_internal] (fun _ => rfl)⟩

/-! ## ControlValue (C14) -/

theorem float_exposed_eq (updates : List (FloatBits × Nat)) :
    ∀ cv : FloatControlValue, cv.exposed updates = updates.map fun u => u.2 % 2 ^ 32 := by
  induction updates with
  | nil => intro cv; rfl
  | cons u updates ih =>
    intro cv
    obtain ⟨value, generation⟩ := u
    simp only [FloatControlValue.exposed, List.map_cons, ih]
    rfl

theorem int_exposed_eq (updates : List (Int × Nat)) :
    ∀ cv : IntControlValue, cv.exposed updates = updates.map fun u => u.2 % 2 ^ 32 := by
  induction updates with
  | nil => intro cv; rfl
  | cons u updates ih =>
    intro cv
    obtain ⟨value, generation⟩ := u
    simp only [IntControlValue.exposed, List.map_cons, ih]
    rfl

theorem map_mod_range (k : Nat) (hk : k < 2 ^ 32) :
    (List.range' 1 k).map (fun g => g % 2 ^ 32) = List.range' 1 k := by
  have h : ∀ g ∈ List.range' 1 k, g % 2 ^ 32 = g := by
    intro g hg
    rw [List.mem_range'_1] at hg
    exact Nat.mod_eq_of_lt (by omega)
  calc (List.range' 1 k).map (fun g => g % 2 ^ 32)
      = (List.range' 1 k).map id := List.map_congr_left h
    _ = List.range' 1 k := List.map_id _

/-- Counterexample to C14: `set_value(1, 3)` on a float control value whose
generation is 5 leaves it with generation 3, which is neither greater than 5
nor the number of updates, 1. -/
theorem set_value_can_lower_generation :
    float_value_at_5.generation = 5 ∧
    (float_value_at_5.set_value 1 3).generation = 3 ∧
    ¬ (float_value_at_5.set_value 1 3).generation > float_value_at_5.generation ∧
    float_value_at_5.exposed [(1, 3)] = [3] ∧ (3 : Nat) ≠ [((1 : FloatBits), 3)].length := by
  decide

/-- C14, amended: `set_value(value, generation)` exposes the generation it is
passed.  For every run of updates of a `FloatControlValue` or an
`IntControlValue`, `generation()` after each update is the generation that
update passed (as a `uint32_t`), so it is greater than the one before exactly
when the caller passes a greater one; when the caller passes 1, 2, ..., k in
turn, the generations exposed are 1, 2, ..., k, strictly increasing and equal
to the number of updates so far. -/
theorem set_value_exposes_passed_generation (fcv : FloatControlValue) (icv : IntControlValue)
    (fupdates : List (FloatBits × Nat)) (iupdates : List (Int × Nat)) (k : Nat)
    (hk : k < 2 ^ 32) :
    fcv.exposed fupdates = fupdates.map (fun u => u.2 % 2 ^ 32) ∧
    icv.exposed iupdates = iupdates.map (fun u => u.2 % 2 ^ 32) ∧
    (∀ value generation, (fcv.set_value value generation).generation = generation % 2 ^ 32) ∧
    (∀ value generation, (icv.set_value value generation).generation = generation % 2 ^ 32) ∧
    (fupdates.map Prod.snd = List.range' 1 k → fcv.exposed fupdates = List.range' 1 k) ∧
    (iupdates.map Prod.snd = List.range' 1 k → icv.exposed iupdates = List.range' 1 k) := by
  refine ⟨float_exposed_eq fupdates fcv, int_exposed_eq iupdates icv, fun _ _ => rfl,
    fun _ _ => rfl, ?_, ?_⟩
  · intro h
    rw [float_exposed_eq, ← map_mod_range k hk, ← h, List.map_map]
    rfl
  · intro h
    rw [int_exposed_eq, ← map_mod_range k hk, ← h, List.map_map]
    rfl

/-- Witness of the amended C14: three updates that pass 1, 2, 3 expose 1, 2,
3, on a float value that started at generation 5 and on an int value that
started at 0. -/
theorem set_value_exposes_passed_generation_witness :
    float_value_at_5.exposed [(7, 1), (8, 2), (9, 3)] = [1, 2, 3] ∧
    int_value_at_0.exposed [(-7, 1), (8, 2), (9, 3)] = [1, 2, 3] :=
  ⟨(set_value_exposes_passed_generation float_value_at_5 int_value_at_0
      [(7, 1), (8, 2), (9, 3)] [(-7, 1), (8, 2), (9, 3)] 3 (by decide)).2.2.2.2.1 (by decide),
   (set_value_exposes_passed_generation float_value_at_5 int_value_at_0
      [(7, 1), (8, 2), (9, 3)] [(-7, 1), (8, 2), (9, 3)] 3 (by decide)).2.2.2.2.2 (by decide)⟩

/-! ## IPCBackend (C11 to C13) -/

namespace noisicore

theorem output_of_written (st : IPCBackend) (channel : String) (c : Nat) (s : List Byte)
    (hc : (channel = "left" ∧ c = 0) ∨ (channel = "right" ∧ c = 1))
    (hw : st._channel_written.get c = true) :
    st.output channel s =
      (Status.Error (Message.channel_written_multiple_times channel), st) := by
  rcases hc with ⟨h1, h2⟩ | ⟨h1, h2⟩ <;> subst h1 <;> subst h2 <;>
    simp [IPCBackend.output, hw]

theorem output_of_unwritten (st : IPCBackend) (channel : String) (c : Nat) (s : List Byte)
    (hc : (channel = "left" ∧ c = 0) ∨ (channel = "right" ∧ c = 1))
    (hw : st._channel_written.get c = false) :
    st.output channel s =
      (Status.Ok,
        { st with _channel_written := st._channel_written.set c true,
                  _samples := st._samples.set c
                    (memmove (st._samples.get c) s (st._block_size * 4)) }) := by
  rcases hc with ⟨h1, h2⟩ | ⟨h1, h2⟩ <;> subst h1 <;> subst h2 <;>
    simp [IPCBackend.output, hw]

theorem get_set_same {α : Type} (x : PerChannel α) (c : Nat) (v : α) :
    (x.set c v).get c = v := by
  unfold PerChannel.get PerChannel.set
  split <;> rfl

theorem get_set_other {α : Type} (x : PerChannel α) (c d : Nat) (v : α) (hc : c < 2)
    (hd : d < 2) (hne : c ≠ d) : (x.set c v).get d = x.get d := by
  unfold PerChannel.get PerChannel.set
  have h : (c = 0 ∧ d = 1) ∨ (c = 1 ∧ d = 0) := by omega
  rcases h with ⟨h1, h2⟩ | ⟨h1, h2⟩ <;> subst h1 <;> subst h2 <;> simp

/-- A call of `output` keeps the block size; it keeps the staged samples and
the written flag of channel `c` when it names another channel or when `c` is
already written. -/
theorem output_keeps (st : IPCBackend) (channel name : String) (c : Nat) (s : List Byte)
    (hc : (channel = "left" ∧ c = 0) ∨ (channel = "right" ∧ c = 1))
    (h : name ≠ channel ∨ st._channel_written.get c = true) :
    (st.output name s).2._block_size = st._block_size ∧
      (st.output name s).2._samples.get c = st._samples.get c ∧
      (st.output name s).2._channel_written.get c = st._channel_written.get c := by
  by_cases hn : name = channel
  · subst hn
    have hw : st._channel_written.get c = true := by
      rcases h with h | h
      · exact absurd rfl h
      · exact h
    rw [output_of_written st name c s hc hw]
    exact ⟨rfl, rfl, rfl⟩
  · rcases hc with ⟨h1, h2⟩ | ⟨h1, h2⟩ <;> subst h1 <;> subst h2
    · by_cases hr : name = "right"
      · subst hr
        cases hw1 : st._channel_written.get 1 with
        | true =>
          rw [output_of_written st "right" 1 s (Or.inr ⟨rfl, rfl⟩) hw1]
          exact ⟨rfl, rfl, rfl⟩
        | false =>
          rw [output_of_unwritten st "right" 1 s (Or.inr ⟨rfl, rfl⟩) hw1]
          exact ⟨rfl, get_set_other _ 1 0 _ (by decide) (by decide) (by decide),
            get_set_other _ 1 0 _ (by decide) (by decide) (by decide)⟩
      · simp [IPCBackend.output, hn, hr]
    · by_cases hl : name = "left"
      · subst hl
        cases hw0 : st._channel_written.get 0 with
        | true =>
          rw [output_of_written st "left" 0 s (Or.inl ⟨rfl, rfl⟩) hw0]
          exact ⟨rfl, rfl, rfl⟩
        | false =>
          rw [output_of_unwritten st "left" 0 s (Or.inl ⟨rfl, rfl⟩) hw0]
          exact ⟨rfl, get_set_other _ 0 1 _ (by decide) (by decide) (by decide),
            get_set_other _ 0 1 _ (by decide) (by decide) (by decide)⟩
      · simp [IPCBackend.output, hn, hl]

/-- A run of `output` calls that do not name `channel` keeps that channel's
staged samples and written flag, and the block size. -/
theorem outputs_keep_unnamed (channel : String) (c : Nat)
    (hc : (channel = "left" ∧ c = 0) ∨ (channel = "right" ∧ c = 1))
    (calls : List (String × List Byte)) :
    ∀ st : IPCBackend, (∀ x ∈ calls, x.1 ≠ channel) →
      (st.outputs calls).2._block_size = st._block_size ∧
        (st.outputs calls).2._samples.get c = st._samples.get c ∧
        (st.outputs calls).2._channel_written.get c = st._channel_written.get c := by
  induction calls with
  | nil => intro st _; exact ⟨rfl, rfl, rfl⟩
  | cons x calls ih =>
    intro st h
    obtain ⟨name, s⟩ := x
    obtain ⟨k1, k2, k3⟩ :=
      output_keeps st channel name c s hc (Or.inl (h (name, s) (List.mem_cons_self _ _)))
    obtain ⟨i1, i2, i3⟩ := ih (st.output name s).2 fun y hy => h y (List.mem_cons_of_mem _ hy)
    simp only [IPCBackend.outputs]
    exact ⟨i1.trans k1, i2.trans k2, i3.trans k3⟩

/-- Once channel `c` is written, a run of `output` calls keeps its staged
samples and its flag, and every call in the run that names it gets the error
"Channel %s written multiple times." -/
theorem outputs_keep_written (channel : String) (c : Nat)
    (hc : (channel = "left" ∧ c = 0) ∨ (channel = "right" ∧ c = 1))
    (calls : List (String × List Byte)) :
    ∀ st : IPCBackend, st._channel_written.get c = true →
      (st.outputs calls).2._block_size = st._block_size ∧
        (st.outputs calls).2._samples.get c = st._samples.get c ∧
        (st.outputs calls).2._channel_written.get c = true ∧
        ∀ (j : Nat) (s' : List Byte), calls[j]? = some (channel, s') →
          (st.outputs calls).1[j]? =
            some (Status.Error (Message.channel_written_multiple_times channel)) := by
  induction calls with
  | nil =>
    intro st hw
    exact ⟨rfl, rfl, hw, fun j s' h => by simp at h⟩
  | cons x calls ih =>
    intro st hw
    obtain ⟨name, s⟩ := x
    obtain ⟨k1, k2, k3⟩ := output_keeps st channel name c s hc (Or.inr hw)
    obtain ⟨i1, i2, i3, i4⟩ := ih (st.output name s).2 (k3.trans hw)
    simp only [IPCBackend.outputs]
    refine ⟨i1.trans k1, i2.trans k2, i3, ?_⟩
    intro j s' hj
    cases j with
    | zero =>
      simp only [List.getElem?_cons_zero, Option.some.injEq, Prod.mk.injEq] at hj
      obtain ⟨hname, _⟩ := hj
      subst hname
      simp only [List.getElem?_cons_zero, output_of_written st name c s hc hw]
    | succ j =>
      simp only [List.getElem?_cons_succ] at hj ⊢
      exact i4 j s' hj

theorem new_buffer_length (garbage : Nat → Byte) (size : Nat) :
    (new_buffer garbage size).length = size := by
  simp [new_buffer]

theorem output_id_zero : output_id 0 = "output:0" := by decide

theorem output_id_one : output_id 1 = "output:1" := by decide

/-- What `begin_block` does with a request that is not an error. -/
theorem begin_block_of_request (st : IPCBackend) (stor_request : StatusOr BlockData)
    (garbage : Nat → Byte) (h : stor_request.status.is_error = false) :
    st.begin_block stor_request garbage =
      (Status.Ok,
        if st._block_size ≠ stor_request._result.blockSize then
          { _block_size := stor_request._result.blockSize,
            _samples :=
              { c0 := new_buffer garbage (stor_request._result.blockSize * 4),
                c1 := new_buffer garbage (stor_request._result.blockSize * 4) },
            _channel_written := { c0 := false, c1 := false },
            _out_block :=
              { block_data_builder with blockSize := stor_request._result.blockSize,
                                        samplePos := stor_request._result.samplePos },
            vm_block_sizes := st.vm_block_sizes ++ [stor_request._result.blockSize],
            allocations := st.allocations ++
              [stor_request._result.blockSize * 4, stor_request._result.blockSize * 4],
            sent := st.sent }
        else
          { st with
            _channel_written := { c0 := false, c1 := false },
            _out_block :=
              { block_data_builder with blockSize := stor_request._result.blockSize,
                                        samplePos := stor_request._result.samplePos } }) := by
  by_cases hb : st._block_size = stor_request._result.blockSize
  · simp [IPCBackend.begin_block, h, hb, PerChannel.set]
  · simp [IPCBackend.begin_block, h, hb, PerChannel.set]

theorem request_of_begin_block_ok (st : IPCBackend) (stor_request : StatusOr BlockData)
    (garbage : Nat → Byte) (h : (st.begin_block stor_request garbage).1 = Status.Ok) :
    stor_request.status.is_error = false := by
  cases he : stor_request.status.is_error with
  | false => rfl
  | true =>
    simp only [IPCBackend.begin_block, he, if_true] at h
    rw [h] at he
    exact absurd he (by decide)

/-- The `buffers` list that `end_block` builds. -/
theorem end_block_buffers (send_block : BlockData → Status) (st : IPCBackend) :
    (st.end_block send_block).2._out_block.buffers =
      (if st._channel_written.c0 then
        [{ id := output_id 0, data := st._samples.c0.take (st._block_size * 4) }] else []) ++
      (if st._channel_written.c1 then
        [{ id := output_id (if st._channel_written.c0 then 1 else 0),
           data := st._samples.c1.take (st._block_size * 4) }] else []) := by
  cases h0 : st._channel_written.c0 <;> cases h1 : st._channel_written.c1 <;>
    simp [IPCBackend.end_block, PerChannel.get, h0, h1] <;> split <;> rfl

/-- After a `begin_block` that returns Ok: the block size is the request's,
no channel is written, and both staging arrays hold that many floats if they
held `_block_size` floats before. -/
theorem begin_block_facts (st : IPCBackend) (stor_request : StatusOr BlockData)
    (garbage : Nat → Byte) (hok : (st.begin_block stor_request garbage).1 = Status.Ok) :
    (st.begin_block stor_request garbage).2._block_size = stor_request._result.blockSize ∧
      (st.begin_block stor_request garbage).2._channel_written = { c0 := false, c1 := false } ∧
      (st.sized → (st.begin_block stor_request garbage).2.sized) := by
  have h := request_of_begin_block_ok st stor_request garbage hok
  rw [begin_block_of_request st stor_request garbage h]
  by_cases hb : st._block_size = stor_request._result.blockSize
  · rw [if_neg (not_not.mpr hb)]
    exact ⟨hb, rfl, fun hs => hs⟩
  · rw [if_pos hb]
    exact ⟨rfl, rfl, fun _ => ⟨new_buffer_length _ _, new_buffer_length _ _⟩⟩

theorem sized_get (st : IPCBackend) (hs : st.sized) (c : Nat) :
    (st._samples.get c).length = st._block_size * 4 := by
  unfold PerChannel.get
  split
  · exact hs.1
  · exact hs.2

theorem memmove_full (dst src : List Byte) (n : Nat) (hd : dst.length = n) :
    memmove dst src n = src.take n := by
  unfold memmove
  rw [List.drop_of_length_le (by omega), List.append_nil]

/-- C11: one write per channel and per block.  In a block opened by a
`begin_block` that returned Ok (on a backend whose staging arrays hold
`_block_size` floats), after any `output` calls that do not name `channel`
(`left` or `right`, number `c`), the first `output(channel, s)` returns Ok and
stages `s`, the block's `_block_size * 4` bytes of it.  Every further
`output(channel, s')` of the block, among any other `output` calls, returns
the DuplicateChannel error "Channel %s written multiple times." and, as any
`output` of a written channel, leaves the backend as it was.  At the end the
staged samples of `channel` are still those of the first write, its flag is
set, and `end_block` puts them in an entry of the frame. -/
theorem first_output_wins (st : IPCBackend) (stor_request : StatusOr BlockData)
    (garbage : Nat → Byte) (send_block : BlockData → Status) (channel : String) (c : Nat)
    (s : List Byte) (before more : List (String × List Byte))
    (hsized : st.sized) (hok : (st.begin_block stor_request garbage).1 = Status.Ok)
    (hc : (channel = "left" ∧ c = 0) ∨ (channel = "right" ∧ c = 1))
    (hbefore : ∀ x ∈ before, x.1 ≠ channel) :
    ∃ (st1 st2 st3 : IPCBackend) (results : List Status),
      ((st.begin_block stor_request garbage).2.outputs before).2 = st1 ∧
      st1.output channel s = (Status.Ok, st2) ∧
      st2._samples.get c = s.take (stor_request._result.blockSize * 4) ∧
      st2.outputs more = (results, st3) ∧
      (∀ (j : Nat) (s' : List Byte), more[j]? = some (channel, s') →
        ∃ status, results[j]? = some status ∧ status.is_duplicate_channel = true) ∧
      (∀ (st' : IPCBackend) (s' : List Byte), st'._channel_written.get c = true →
        st'.output channel s' =
          (Status.Error (Message.channel_written_multiple_times channel), st')) ∧
      st3._samples.get c = s.take (stor_request._result.blockSize * 4) ∧
      st3._channel_written.get c = true ∧
      ∃ (b : Nat) (entry : Buffer),
        (st3.end_block send_block).2._out_block.buffers[b]? = some entry ∧
        entry.data = s.take (stor_request._result.blockSize * 4) := by
  obtain ⟨hbs0, hw0, hsz0⟩ := begin_block_facts st stor_request garbage hok
  have hsz0' := hsz0 hsized
  obtain ⟨hbs1, hsm1, hw1⟩ :=
    outputs_keep_unnamed channel c hc before (st.begin_block stor_request garbage).2 hbefore
  have hflag1 : ((st.begin_block stor_request garbage).2.outputs before).2._channel_written.get c
      = false := by
    rw [hw1, hw0]
    unfold PerChannel.get
    split <;> rfl
  have hlen1 : (((st.begin_block stor_request garbage).2.outputs before).2._samples.get c).length
      = stor_request._result.blockSize * 4 := by
    rw [hsm1, sized_get _ hsz0' c, hbs0]
  have hout := output_of_unwritten _ channel c s hc hflag1
  rw [hbs1, hbs0, memmove_full _ _ _ hlen1] at hout
  have key : ∃ st2 : IPCBackend,
      ((st.begin_block stor_request garbage).2.outputs before).2.output channel s =
        (Status.Ok, st2) ∧
      st2._samples.get c = s.take (stor_request._result.blockSize * 4) ∧
      st2._channel_written.get c = true ∧
      st2._block_size = stor_request._result.blockSize :=
    ⟨_, hout, get_set_same _ _ _, get_set_same _ _ _, rfl⟩
  obtain ⟨st2, hout2, hsm2, hw2, hbs2⟩ := key
  obtain ⟨h1, h2, h3, h4⟩ := outputs_keep_written channel c hc more st2 hw2
  refine ⟨_, st2, (st2.outputs more).2, (st2.outputs more).1, rfl, hout2, hsm2, rfl, ?_, ?_,
    h2.trans hsm2, h3, ?_⟩
  · intro j s' hj
    exact ⟨_, h4 j s' hj, rfl⟩
  · intro st' s' hw
    exact output_of_written st' channel c s' hc hw
  · have hdata := h2.trans hsm2
    have hbsz := h1.trans hbs2
    rw [end_block_buffers]
    rcases hc with ⟨_, hc0⟩ | ⟨_, hc1⟩
    · subst hc0
      have h3' : (st2.outputs more).2._channel_written.c0 = true := h3
      have hdata' : (st2.outputs more).2._samples.c0 =
          s.take (stor_request._result.blockSize * 4) := hdata
      refine ⟨0, ⟨output_id 0, s.take (stor_request._result.blockSize * 4)⟩, ?_, rfl⟩
      rw [h3', hbsz, hdata', List.take_take, Nat.min_self]
      simp
    · subst hc1
      have h3' : (st2.outputs more).2._channel_written.c1 = true := h3
      have hdata' : (st2.outputs more).2._samples.c1 =
          s.take (stor_request._result.blockSize * 4) := hdata
      rw [h3', hbsz, hdata', List.take_take, Nat.min_self]
      cases (st2.outputs more).2._channel_written.c0 with
      | true =>
        exact ⟨1, ⟨output_id 1, s.take (stor_request._result.blockSize * 4)⟩, by simp, rfl⟩
      | false =>
        exact ⟨0, ⟨output_id 0, s.take (stor_request._result.blockSize * 4)⟩, by simp, rfl⟩

/-- Witness of C11: on `backend_idle`, in a block of 2 frames, `right` is
written, then `left`, then `left` and `right` again. -/
theorem first_output_wins_witness :
    backend_idle.sized ∧
    ∃ (st1 st2 st3 : IPCBackend) (results : List Status),
      ((backend_idle.begin_block request_2 fun _ => 0).2.outputs
        [("right", [3, 3, 3, 3, 4, 4, 4, 4])]).2 = st1 ∧
      st1.output "left" [5, 5, 5, 5, 6, 6, 6, 6] = (Status.Ok, st2) ∧
      st2._samples.get 0 = [5, 5, 5, 5, 6, 6, 6, 6] ∧
      st2.outputs [("left", [7, 7, 7, 7, 7, 7, 7, 7]), ("right", [8, 8, 8, 8, 8, 8, 8, 8])] =
        (results, st3) ∧
      st3._samples.get 0 = [5, 5, 5, 5, 6, 6, 6, 6] ∧ st3._channel_written.get 0 = true ∧
      ∃ (b : Nat) (entry : Buffer),
        (st3.end_block stream_ok).2._out_block.buffers[b]? = some entry ∧
        entry.data = [5, 5, 5, 5, 6, 6, 6, 6] := by
  have hs : backend_idle.sized := ⟨rfl, rfl⟩
  obtain ⟨st1, st2, st3, results, h1, h2, h3, h4, _, _, h7, h8, h9⟩ :=
    first_output_wins backend_idle request_2 (fun _ => 0) stream_ok "left" 0
      [5, 5, 5, 5, 6, 6, 6, 6] [("right", [3, 3, 3, 3, 4, 4, 4, 4])]
      [("left", [7, 7, 7, 7, 7, 7, 7, 7]), ("right", [8, 8, 8, 8, 8, 8, 8, 8])]
      hs (by decide) (Or.inl ⟨rfl, rfl⟩) (by decide)
  exact ⟨hs, st1, st2, st3, results, h1, h2, h3, h4, h7, h8, h9⟩

/-- Counterexample to C12: in a block in which only `right` was written, the
single entry of the frame carries the samples of `right` (channel 1) and is
tagged "output:0". -/
theorem end_block_right_only_tagged_zero :
    backend_right_only._channel_written = { c0 := false, c1 := true } ∧
    backend_right_only._samples.c1 = [0, 0, 0, 64, 0, 0, 0, 64] ∧
    (backend_right_only.end_block stream_ok).2._out_block.buffers =
      [{ id := "output:0", data := [0, 0, 0, 64, 0, 0, 0, 64] }] ∧
    ("output:0" : String) ≠ "output:1" := by
  decide

/-- C12, amended: the frame built by `end_block`.  Its `buffers` list has one
entry for each written channel and none for an unwritten one, `left` before
`right`; each entry carries the first `_block_size * 4` bytes staged for its
channel (all of them when the staging arrays hold `_block_size` floats) and is
tagged "output:" followed by the position of the entry in the list, so that
`left` is always "output:0" and `right` is "output:1" when `left` is written
too and "output:0" when it is not.  The frame keeps the block size and the
sample position set by `begin_block` and is handed to `send_block`. -/
theorem end_block_entries (send_block : BlockData → Status) (st : IPCBackend) :
    (st.end_block send_block).2._out_block.buffers =
      (if st._channel_written.c0 then
        [{ id := "output:0", data := st._samples.c0.take (st._block_size * 4) }] else []) ++
      (if st._channel_written.c1 then
        [{ id := if st._channel_written.c0 then "output:1" else "output:0",
           data := st._samples.c1.take (st._block_size * 4) }] else []) ∧
    (st.sized → st._samples.c0.take (st._block_size * 4) = st._samples.c0 ∧
      st._samples.c1.take (st._block_size * 4) = st._samples.c1 ∧
      st._samples.c0.length = st._block_size * 4 ∧ st._samples.c1.length = st._block_size * 4) ∧
    (st.end_block send_block).2._out_block.blockSize = st._out_block.blockSize ∧
    (st.end_block send_block).2._out_block.samplePos = st._out_block.samplePos ∧
    (st.end_block send_block).2.sent = st.sent ++ [(st.end_block send_block).2._out_block] := by
  refine ⟨?_, ?_, ?_, ?_, ?_⟩
  · rw [end_block_buffers, output_id_zero]
    cases st._channel_written.c0 <;> simp [output_id_zero, output_id_one]
  · intro hs
    exact ⟨List.take_of_length_le (by rw [hs.1]), List.take_of_length_le (by rw [hs.2]),
      hs.1, hs.2⟩
  · unfold IPCBackend.end_block
    simp only
    split <;> rfl
  · unfold IPCBackend.end_block
    simp only
    split <;> rfl
  · unfold IPCBackend.end_block
    simp only
    split <;> rfl

/-- Witness of the amended C12: a block in which both channels were written,
`right` first. -/
theorem end_block_entries_witness :
    ((backend_idle.outputs [("right", [3, 3, 3, 3, 4, 4, 4, 4]),
        ("left", [5, 5, 5, 5, 6, 6, 6, 6])]).2.end_block stream_ok).2._out_block.buffers =
      [{ id := "output:0", data := [5, 5, 5, 5, 6, 6, 6, 6] },
       { id := "output:1", data := [3, 3, 3, 3, 4, 4, 4, 4] }] := by
  have h := (end_block_entries stream_ok
    (backend_idle.outputs [("right", [3, 3, 3, 3, 4, 4, 4, 4]),
      ("left", [5, 5, 5, 5, 6, 6, 6, 6])]).2).1
  rw [h]
  decide

/-- C13: `begin_block` adopts the request.  When `begin_block` returns Ok on a
request with block size `n` and sample position `p`: the backend's block size
is `n`, neither channel is marked written, and the pending response has
`blockSize = n`, `samplePos = p` and no entry yet.  If `n` differs from the
previous block size, both staging arrays are allocated anew with `n * 4`
bytes (n floats) and `set_block_size(n)` is called on the engine, once; if
not, nothing is allocated, the engine is not called and the staging arrays are
kept. -/
theorem begin_block_adopts_request (st : IPCBackend) (stor_request : StatusOr BlockData)
    (garbage : Nat → Byte) (hok : (st.begin_block stor_request garbage).1 = Status.Ok) :
    (st.begin_block stor_request garbage).2._block_size = stor_request._result.blockSize ∧
    (st.begin_block stor_request garbage).2._channel_written = { c0 := false, c1 := false } ∧
    (st.begin_block stor_request garbage).2._out_block.blockSize =
      stor_request._result.blockSize ∧
    (st.begin_block stor_request garbage).2._out_block.samplePos =
      stor_request._result.samplePos ∧
    (st.begin_block stor_request garbage).2._out_block.buffers = [] ∧
    (stor_request._result.blockSize ≠ st._block_size →
      (st.begin_block stor_request garbage).2.allocations =
        st.allocations ++ [stor_request._result.blockSize * 4,
          stor_request._result.blockSize * 4] ∧
      (st.begin_block stor_request garbage).2._samples.c0.length =
        stor_request._result.blockSize * 4 ∧
      (st.begin_block stor_request garbage).2._samples.c1.length =
        stor_request._result.blockSize * 4 ∧
      (st.begin_block stor_request garbage).2.vm_block_sizes =
        st.vm_block_sizes ++ [stor_request._result.blockSize]) ∧
    (stor_request._result.blockSize = st._block_size →
      (st.begin_block stor_request garbage).2.allocations = st.allocations ∧
      (st.begin_block stor_request garbage).2._samples = st._samples ∧
      (st.begin_block stor_request garbage).2.vm_block_sizes = st.vm_block_sizes) := by
  have h := request_of_begin_block_ok st stor_request garbage hok
  rw [begin_block_of_request st stor_request garbage h]
  by_cases hb : st._block_size = stor_request._result.blockSize
  · rw [if_neg (not_not.mpr hb)]
    exact ⟨hb, rfl, rfl, rfl, rfl, fun hne => absurd hb.symm hne, fun _ => ⟨rfl, rfl, rfl⟩⟩
  · rw [if_pos hb]
    exact ⟨rfl, rfl, rfl, rfl, rfl,
      fun _ => ⟨rfl, new_buffer_length _ _, new_buffer_length _ _, rfl⟩,
      fun he => absurd he.symm hb⟩

/-- Witness of C13: `backend_idle`, whose block size is 2, is asked for a
block of 3 frames, and for a block of 2 frames. -/
theorem begin_block_adopts_request_witness :
    ((backend_idle.begin_block request_3 fun _ => 0).2._block_size = 3 ∧
      (backend_idle.begin_block request_3 fun _ => 0).2._out_block.samplePos = 1002 ∧
      (backend_idle.begin_block request_3 fun _ => 0).2.allocations = [12, 12] ∧
      (backend_idle.begin_block request_3 fun _ => 0).2.vm_block_sizes = [3]) ∧
    ((backend_idle.begin_block request_2 fun _ => 0).2._block_size = 2 ∧
      (backend_idle.begin_block request_2 fun _ => 0).2.allocations = [] ∧
      (backend_idle.begin_block request_2 fun _ => 0).2.vm_block_sizes = []) := by
  obtain ⟨h1, _, _, h4, _, h6, _⟩ :=
    begin_block_adopts_request backend_idle request_3 (fun _ => 0) (by decide)
  obtain ⟨k1, _, _, _, _, _, k7⟩ :=
    begin_block_adopts_request backend_idle request_2 (fun _ => 0) (by decide)
  obtain ⟨a1, _, _, a4⟩ := h6 (by decide)
  obtain ⟨b1, _, b3⟩ := k7 (by decide)
  exact ⟨⟨h1, h4, a1, a4⟩, ⟨k1, b1, b3⟩⟩

end noisicore

end noisicaa
